import Mathlib

/-! Cache-aside weather lookup (`weather-api/weather-api.go`) and the task list
(`task-tracker/task-tracker.go`).

Shallow embedding.  Go strings are byte sequences, a `float64` is held by its
bit pattern (the code only stores and copies it), the Redis client is a
key-value store with a recorded expiration and two fault switches, and the HTTP
client is a function from the request URL to its result.  Each run of
`getWeather` yields its return value, the ordered list of the external calls it
made, and the store it leaves behind.

The three `encoding/json` entry points the code calls are fields of `Json`, so
every statement about `getWeather` holds whatever those library calls return.
The statements about the cache value itself need more: for them `json.Marshal`
and `json.Unmarshal` on a `WeatherResponse` are modelled on bytes, after the
library, with the decimal text of a `float64` left as a parameter.
-/

namespace WeatherApi

/-- A Go `string` / `[]byte`: a sequence of bytes. -/
abbrev GoString := List (Fin 256)

/-- An ASCII literal of the source as a Go string. -/
def lit (s : String) : GoString := s.toList.map (fun c => Fin.ofNat c.toNat)

/-- A Go `float64`, held by its IEEE-754 bit pattern; `0.0` is the all-zero pattern. -/
structure Float64 where
  bits : Nat
  deriving DecidableEq, Repr

/-- The literal `0.0`, which is also the zero value of the type. -/
def Float64.zero : Float64 := ⟨0⟩

/-- `type WeatherResponse struct { City string; Temp float64; Weather string }`. -/
structure WeatherResponse where
  City : GoString
  Temp : Float64
  Weather : GoString
  deriving DecidableEq, Repr

/-- What `encoding/json` stores in an `interface{}`: `nil`, `bool`, `float64`,
`string`, `[]interface{}` or `map[string]interface{}`. -/
inductive JVal where
  | null : JVal
  | bool (b : Bool) : JVal
  | number (f : Float64) : JVal
  | string (s : GoString) : JVal
  | array (xs : List JVal) : JVal
  | object (fields : List (GoString × JVal)) : JVal

/-- A `map[string]interface{}`. -/
abbrev JMap := List (GoString × JVal)

/-- The map index expression `m[key]`: `none` is the nil interface of a missing key. -/
def JMap.index (m : JMap) (key : GoString) : Option JVal := List.lookup key m

/-- The type assertion `v.([]interface{})` on the result of an index expression. -/
def assertSlice : Option JVal → Option (List JVal)
  | some (.array xs) => some xs
  | _ => none

/-- The type assertion `v.(map[string]interface{})`. -/
def assertMap : JVal → Option JMap
  | .object fields => some fields
  | _ => none

/-- The type assertion `v.(float64)` on the result of an index expression. -/
def assertFloat64 : Option JVal → Option Float64
  | some (.number f) => some f
  | _ => none

/-- The type assertion `v.(string)` on the result of an index expression. -/
def assertString : Option JVal → Option GoString
  | some (.string s) => some s
  | _ => none

/-- The errors `getWeather` builds with `fmt.Errorf`, one constructor per format string. -/
inductive LookupError where
  | fetchFailed (err : GoString) : LookupError
  | apiError (statusCode : Nat) (body : GoString) : LookupError
  | decodeFailed (err : GoString) : LookupError
  | invalidStructure : LookupError
  deriving DecidableEq, Repr

/-- The outcome of `http.Get(url)`: an error, or a response with its status code and body. -/
inductive HttpResult where
  | failed (err : GoString) : HttpResult
  | response (statusCode : Nat) (body : GoString) : HttpResult
  deriving DecidableEq, Repr

/-- `http.StatusOK`. -/
def StatusOK : Nat := 200

/-- `http.StatusBadRequest`. -/
def StatusBadRequest : Nat := 400

/-- `http.StatusInternalServerError`. -/
def StatusInternalServerError : Nat := 500

/-- `time.Minute`, in nanoseconds as a `time.Duration`. -/
def Minute : Nat := 60 * 1000000000

/-- A stored Redis value with the expiration it was written with. -/
structure Entry where
  value : GoString
  ttl : Nat
  deriving DecidableEq, Repr

/-- The contents of the Redis backend: at most the first binding of a key is visible. -/
abbrev Store := List (GoString × Entry)

/-- The Redis backend behind `redisClient`: its contents, and whether a `GET`
or a `SET` fails at the connection level. -/
structure Redis where
  store : Store
  getFails : Bool
  setFails : Bool
  deriving DecidableEq, Repr

/-- The error of `redisClient.Get(...).Result()`: `redis.Nil` for a missing key,
or a backend failure. -/
inductive RedisError where
  | nil : RedisError
  | backend : RedisError
  deriving DecidableEq, Repr

/-- The call `redisClient.Get(ctx, key).Result()`. -/
def Redis.Get (r : Redis) (key : GoString) : Except RedisError GoString :=
  if r.getFails then .error .backend
  else match List.lookup key r.store with
    | some e => .ok e.value
    | none => .error .nil

/-- The contents after `redisClient.Set(ctx, key, value, ttl)`: the binding of
`key` is replaced, unless the backend fails. -/
def Redis.Set (r : Redis) (key : GoString) (value : GoString) (ttl : Nat) : Store :=
  if r.setFails then r.store
  else (key, ⟨value, ttl⟩) :: r.store.filter (fun kv => kv.1 ≠ key)

/-- The `encoding/json` calls of `getWeather`: `json.Unmarshal` into a
`WeatherResponse` (`none` for an error), the bytes `json.Marshal` returns for a
`*WeatherResponse` (its error is discarded by the code), and
`json.NewDecoder(body).Decode` into a `map[string]interface{}`. -/
structure Json where
  Unmarshal : GoString → Option WeatherResponse
  Marshal : WeatherResponse → GoString
  Decode : GoString → Except GoString JMap

/-- Everything outside `getWeather`: the Redis backend, the upstream provider
seen through `http.Get`, the JSON library and the package variable `apiKey`. -/
structure World where
  redis : Redis
  httpGet : GoString → HttpResult
  json : Json
  apiKey : GoString

/-- The external calls a run makes, in order. -/
inductive Event where
  | cacheGet (key : GoString) : Event
  | httpGet (url : GoString) : Event
  | cacheSet (key : GoString) (value : GoString) (ttl : Nat) : Event
  deriving DecidableEq, Repr

/-- Whether an event is a cache read. -/
def Event.isCacheGet : Event → Bool
  | .cacheGet _ => true
  | _ => false

/-- Whether an event is an upstream request. -/
def Event.isHttpGet : Event → Bool
  | .httpGet _ => true
  | _ => false

/-- Whether an event is a cache write. -/
def Event.isCacheSet : Event → Bool
  | .cacheSet _ _ _ => true
  | _ => false

/-- A run of `getWeather`: the returned pair as one value, the external calls
made, and the Redis contents afterwards. -/
structure Outcome where
  result : Except LookupError WeatherResponse
  events : List Event
  store : Store

/-- The request URL built with `fmt.Sprintf`. -/
def requestURL (city apiKey : GoString) : GoString :=
  lit "https://weather.visualcrossing.com/VisualCrossingWebServices/rest/services/timeline/"
    ++ city ++ lit "?unitGroup=metric&include=days&key=" ++ apiKey ++ lit "&contentType=json"

/-- Step 4 of `getWeather`, the mapping of the decoded response onto a
`WeatherResponse` (lines 74-95). -/
def normalize (city : GoString) (apiResponse : JMap) : Except LookupError WeatherResponse :=
  let weather : WeatherResponse := { City := city, Temp := Float64.zero, Weather := [] }
  match assertSlice (apiResponse.index (lit "days")) with
  | some (day0 :: _) =>
    match assertMap day0 with
    | some dayData =>
      let weather : WeatherResponse :=
        match assertFloat64 (dayData.index (lit "temp")) with
        | some t => { weather with Temp := t }
        | none => { weather with Temp := Float64.zero }
      let weather : WeatherResponse :=
        match assertString (dayData.index (lit "conditions")) with
        | some w => { weather with Weather := w }
        | none => { weather with Weather := lit "Unknown" }
      .ok weather
    | none => .ok weather
  | _ => .error .invalidStructure

/-- Step 1 of `getWeather`: the cached record, when the read succeeds and the
entry unmarshals. -/
def cachedWeather (w : World) (city : GoString) : Option WeatherResponse :=
  match w.redis.Get city with
  | .ok cachedData => w.json.Unmarshal cachedData
  | .error _ => none

/-- The function `getWeather(city string) (*WeatherResponse, error)`.  The
`fmt.Println` of the request URL, which writes to standard output only, is
left out. -/
def getWeather (w : World) (city : GoString) : Outcome :=
  match cachedWeather w city with
  | some cached => ⟨.ok cached, [.cacheGet city], w.redis.store⟩
  | none =>
    let url := requestURL city w.apiKey
    match w.httpGet url with
    | .failed err => ⟨.error (.fetchFailed err), [.cacheGet city, .httpGet url], w.redis.store⟩
    | .response statusCode body =>
      if statusCode ≠ StatusOK then
        ⟨.error (.apiError statusCode body), [.cacheGet city, .httpGet url], w.redis.store⟩
      else
        match w.json.Decode body with
        | .error err =>
          ⟨.error (.decodeFailed err), [.cacheGet city, .httpGet url], w.redis.store⟩
        | .ok apiResponse =>
          match normalize city apiResponse with
          | .error e => ⟨.error e, [.cacheGet city, .httpGet url], w.redis.store⟩
          | .ok weather =>
            let cacheData := w.json.Marshal weather
            ⟨.ok weather,
              [.cacheGet city, .httpGet url, .cacheSet city cacheData (10 * Minute)],
              w.redis.Set city cacheData (10 * Minute)⟩

/-- The body `weatherHandler` passes to `c.JSON`. -/
inductive ResponseBody where
  | error (message : GoString) : ResponseBody
  | lookupError (err : LookupError) : ResponseBody
  | weather (record : WeatherResponse) : ResponseBody
  deriving DecidableEq, Repr

/-- A run of `weatherHandler`: the status and body written, the external calls
made, and the Redis contents afterwards. -/
structure Handled where
  status : Nat
  body : ResponseBody
  events : List Event
  store : Store

/-- The function `weatherHandler`, on the value of `c.QueryParam("city")`. -/
def weatherHandler (w : World) (city : GoString) : Handled :=
  if city = [] then
    ⟨StatusBadRequest, .error (lit "city parameter is required"), [], w.redis.store⟩
  else
    let out := getWeather w city
    match out.result with
    | .error err => ⟨StatusInternalServerError, .lookupError err, out.events, out.store⟩
    | .ok weather => ⟨StatusOK, .weather weather, out.events, out.store⟩

/-- The city used in the worked runs below. -/
def seoul : GoString := lit "Seoul"

/-- A record as a cache entry may hold it. -/
def clearSeoul : WeatherResponse := ⟨seoul, ⟨4626322717216342016⟩, lit "Clear"⟩

/-- A JSON library for the worked runs: the text `cached` unmarshals to
`clearSeoul`, four response bodies decode to the payloads named in their
comments, everything else is rejected, and every record marshals to `record`. -/
def tableJson : Json where
  Unmarshal := fun data => if data = lit "cached" then some clearSeoul else none
  Marshal := fun _ => lit "record"
  Decode := fun body =>
    -- the payload \x7b"days":[\x7b\x7d]\x7d
    if body = lit "emptyDay" then .ok [(lit "days", .array [.object []])]
    -- the payload \x7b"days":[1]\x7d
    else if body = lit "numberDay" then .ok [(lit "days", .array [.number ⟨4607182418800017408⟩])]
    -- the payload \x7b"days":[]\x7d
    else if body = lit "noDays" then .ok [(lit "days", .array [])]
    -- the payload \x7b"days":[\x7b"temp":21.5,"conditions":"Rain"\x7d]\x7d
    else if body = lit "rainDay" then
      .ok [(lit "days", .array [.object [(lit "temp", .number ⟨4626744929681408000⟩),
        (lit "conditions", .string (lit "Rain"))]])]
    else .error (lit "invalid character")

/-- A world with the given Redis backend whose upstream answers every request
with status 200 and the given body. -/
def worldWith (redis : Redis) (body : GoString) : World where
  redis := redis
  httpGet := fun _ => .response StatusOK body
  json := tableJson
  apiKey := lit "KEY"

/-- An empty, healthy Redis backend. -/
def emptyRedis : Redis := ⟨[], false, false⟩

/-- A healthy Redis backend holding a well-formed entry for `seoul`. -/
def warmRedis : Redis := ⟨[(seoul, ⟨lit "cached", 10 * Minute⟩)], false, false⟩

/-- A healthy Redis backend holding an entry for `seoul` that does not unmarshal. -/
def corruptRedis : Redis := ⟨[(seoul, ⟨lit "garbage", 10 * Minute⟩)], false, false⟩

/-! ## `encoding/json` on a `WeatherResponse`

The cache value is `json.Marshal(weather)` and is read back with
`json.Unmarshal`.  Both are modelled on bytes, after the library: the string
encoder (`appendString`, with HTML escaping as `Marshal` sets it), the scanner
that `Unmarshal` runs first (`checkValid`), and the decoding of an object into
the struct (`unquoteBytes`, case-insensitive field match, `null` leaves a field
as it is, a value of the wrong kind is an error).  The decimal text of a
`float64` is left to `FloatText`; the scanner's nesting limit of 10000 is not
modelled. -/

/-- `utf8.RuneError`, which is also `unicode.ReplacementChar`. -/
def RuneError : Nat := 0xFFFD

/-- The lowest second byte `utf8.acceptRanges` allows after the first byte `p0`. -/
def acceptLo (p0 : Nat) : Nat := if p0 = 0xE0 then 0xA0 else if p0 = 0xF0 then 0x90 else 0x80

/-- The highest second byte `utf8.acceptRanges` allows after the first byte `p0`. -/
def acceptHi (p0 : Nat) : Nat := if p0 = 0xED then 0x9F else if p0 = 0xF4 then 0x8F else 0xBF

/-- `utf8.DecodeRune`: the rune at the start of the bytes and its size; an
invalid encoding is `(RuneError, 1)`.  Masks and shifts are written as
remainders and products. -/
def DecodeRune : GoString → Nat × Nat
  | [] => (RuneError, 0)
  | p0 :: rest =>
    if p0.val < 0x80 then (p0.val, 1)
    else if p0.val < 0xC2 then (RuneError, 1)
    else if p0.val < 0xE0 then
      match rest with
      | b1 :: _ =>
        if 0x80 ≤ b1.val ∧ b1.val ≤ 0xBF then (p0.val % 32 * 64 + b1.val % 64, 2)
        else (RuneError, 1)
      | _ => (RuneError, 1)
    else if p0.val < 0xF0 then
      match rest with
      | b1 :: b2 :: _ =>
        if acceptLo p0.val ≤ b1.val ∧ b1.val ≤ acceptHi p0.val ∧ 0x80 ≤ b2.val ∧ b2.val ≤ 0xBF then
          (p0.val % 16 * 4096 + b1.val % 64 * 64 + b2.val % 64, 3)
        else (RuneError, 1)
      | _ => (RuneError, 1)
    else if p0.val < 0xF5 then
      match rest with
      | b1 :: b2 :: b3 :: _ =>
        if acceptLo p0.val ≤ b1.val ∧ b1.val ≤ acceptHi p0.val ∧ 0x80 ≤ b2.val ∧ b2.val ≤ 0xBF
            ∧ 0x80 ≤ b3.val ∧ b3.val ≤ 0xBF then
          (p0.val % 8 * 262144 + b1.val % 64 * 4096 + b2.val % 64 * 64 + b3.val % 64, 4)
        else (RuneError, 1)
      | _ => (RuneError, 1)
    else (RuneError, 1)

/-- The conversion `byte(n)`. -/
def byte (n : Nat) : Fin 256 := Fin.ofNat n

/-- `utf8.EncodeRune`: a surrogate or a value above `utf8.MaxRune` is written
as `RuneError`. -/
def EncodeRune (r : Nat) : GoString :=
  if r ≤ 0x7F then [byte r]
  else if r ≤ 0x7FF then [byte (0xC0 + r / 64), byte (0x80 + r % 64)]
  else if 0x10FFFF < r ∨ (0xD800 ≤ r ∧ r ≤ 0xDFFF) then [0xEF, 0xBF, 0xBD]
  else if r ≤ 0xFFFF then
    [byte (0xE0 + r / 4096), byte (0x80 + r / 64 % 64), byte (0x80 + r % 64)]
  else
    [byte (0xF0 + r / 262144), byte (0x80 + r / 4096 % 64), byte (0x80 + r / 64 % 64),
      byte (0x80 + r % 64)]

/-- `utf8.Valid`: every rune of the string is validly encoded. -/
def ValidString : GoString → Bool
  | [] => true
  | b :: rest =>
    if b.val < 0x80 then ValidString rest
    else
      match DecodeRune (b :: rest), rest with
      | (_, 4), _ :: _ :: _ :: rest4 => ValidString rest4
      | (_, 3), _ :: _ :: rest3 => ValidString rest3
      | (_, 2), _ :: rest2 => ValidString rest2
      | _, _ => false

/-- The digit `hex[n & 0xF]` of the encoder, `hex` being `0123456789abcdef`. -/
def hexDigit (n : Nat) : Fin 256 :=
  if n % 16 < 10 then byte (0x30 + n % 16) else byte (0x57 + n % 16)

/-- The table `htmlSafeSet` on ASCII: every byte from the space on, except the
double quote, the ampersand, the angle brackets and the backslash. -/
def htmlSafe (b : Nat) : Bool :=
  0x20 ≤ b && b != 0x22 && b != 0x26 && b != 0x3c && b != 0x3e && b != 0x5c

/-- What `appendString` writes for one ASCII byte. -/
def escapeByte (b : Fin 256) : GoString :=
  if htmlSafe b.val then [b]
  else if b.val = 0x5c ∨ b.val = 0x22 then [0x5c, b]
  else if b.val = 0x08 then [0x5c, 0x62]
  else if b.val = 0x0c then [0x5c, 0x66]
  else if b.val = 0x0a then [0x5c, 0x6e]
  else if b.val = 0x0d then [0x5c, 0x72]
  else if b.val = 0x09 then [0x5c, 0x74]
  else [0x5c, 0x75, 0x30, 0x30, hexDigit (b.val / 16), hexDigit b.val]

/-- The loop of `appendString`, between the two quotes: an ASCII byte is
escaped or copied, an invalid byte becomes the six characters of the escape
for U+FFFD, U+2028 and U+2029 are escaped, any other rune is copied. -/
def quoteBody : GoString → GoString
  | [] => []
  | b :: rest =>
    if b.val < 0x80 then escapeByte b ++ quoteBody rest
    else
      match DecodeRune (b :: rest), rest with
      | (_, 4), b1 :: b2 :: b3 :: rest4 => b :: b1 :: b2 :: b3 :: quoteBody rest4
      | (c, 3), b1 :: b2 :: rest3 =>
        if c = 0x2028 ∨ c = 0x2029 then
          [0x5c, 0x75, 0x32, 0x30, 0x32, hexDigit c] ++ quoteBody rest3
        else b :: b1 :: b2 :: quoteBody rest3
      | (_, 2), b1 :: rest2 => b :: b1 :: quoteBody rest2
      | _, rest1 => [0x5c, 0x75, 0x66, 0x66, 0x66, 0x64] ++ quoteBody rest1

/-- The function `appendString` of `encoding/json` with `escapeHTML` set. -/
def appendString (src : GoString) : GoString := 0x22 :: quoteBody src ++ [0x22]

/-- The decimal text of a `float64` as `encoding/json` writes and reads it:
`format` is the text of the float encoder (`none` for NaN and the infinities,
which `json.Marshal` rejects), `parse` is `strconv.ParseFloat(text, 64)`
(`none` for an error). -/
structure FloatText where
  format : Float64 → Option GoString
  parse : GoString → Option Float64

/-- `json.Marshal` of a `*WeatherResponse`: the three fields in declaration
order under their tag names; `none` is an error. -/
def Marshal (ft : FloatText) (v : WeatherResponse) : Option GoString :=
  match ft.format v.Temp with
  | none => none
  | some temp =>
    some (0x7b :: (appendString (lit "city") ++ 0x3a :: (appendString v.City
      ++ 0x2c :: (appendString (lit "temp") ++ 0x3a :: (temp
      ++ 0x2c :: (appendString (lit "weather") ++ 0x3a :: (appendString v.Weather
      ++ [0x7d])))))))

/-- A JSON value as the scanner delimits it: a string keeps the bytes between
its quotes, a number its text. -/
inductive Node where
  | null : Node
  | bool (b : Bool) : Node
  | number (text : GoString) : Node
  | string (raw : GoString) : Node
  | array (items : List Node) : Node
  | object (members : List (GoString × Node)) : Node

/-- The function `isSpace` of the scanner. -/
def isSpace (c : Fin 256) : Bool :=
  c.val = 0x20 || c.val = 0x09 || c.val = 0x0d || c.val = 0x0a

/-- The input after the white space the scanner skips. -/
def skipSpace (s : GoString) : GoString := s.dropWhile isSpace

/-- The value of a hexadecimal digit, as `getu4` reads it. -/
def hexValue (c : Fin 256) : Option Nat :=
  if 0x30 ≤ c.val ∧ c.val ≤ 0x39 then some (c.val - 0x30)
  else if 0x61 ≤ c.val ∧ c.val ≤ 0x66 then some (c.val - 0x61 + 10)
  else if 0x41 ≤ c.val ∧ c.val ≤ 0x46 then some (c.val - 0x41 + 10)
  else none

/-- Whether a byte is a hexadecimal digit. -/
def isHex (c : Fin 256) : Bool := (hexValue c).isSome

/-- The scanner inside a string, after the opening quote (`stateInString` and
the escape states): the bytes up to the closing quote and the input after it. -/
def scanString : GoString → Option (GoString × GoString)
  | [] => none
  | c :: rest =>
    if c.val = 0x22 then some ([], rest)
    else if c.val = 0x5c then
      match rest with
      | [] => none
      | e :: rest1 =>
        if e.val = 0x62 ∨ e.val = 0x66 ∨ e.val = 0x6e ∨ e.val = 0x72 ∨ e.val = 0x74
            ∨ e.val = 0x5c ∨ e.val = 0x2f ∨ e.val = 0x22 then
          (scanString rest1).map (fun p => (c :: e :: p.1, p.2))
        else if e.val = 0x75 then
          match rest1 with
          | h1 :: h2 :: h3 :: h4 :: rest2 =>
            if isHex h1 ∧ isHex h2 ∧ isHex h3 ∧ isHex h4 then
              (scanString rest2).map (fun p => (c :: e :: h1 :: h2 :: h3 :: h4 :: p.1, p.2))
            else none
          | _ => none
        else none
    else if c.val < 0x20 then none
    else (scanString rest).map (fun p => (c :: p.1, p.2))

/-- Whether a byte is a decimal digit. -/
def isDigit (c : Fin 256) : Bool := 0x30 ≤ c.val && c.val ≤ 0x39

/-- One or more digits. -/
def scanDigits (s : GoString) : Option (GoString × GoString) :=
  if s.takeWhile isDigit = [] then none
  else some (s.takeWhile isDigit, s.dropWhile isDigit)

/-- The optional exponent of a number (`stateE`, `stateESign`, `stateE0`). -/
def scanExponent (s : GoString) : Option (GoString × GoString) :=
  match s with
  | e :: rest =>
    if e.val = 0x65 ∨ e.val = 0x45 then
      match rest with
      | sign :: rest1 =>
        if sign.val = 0x2b ∨ sign.val = 0x2d then
          (scanDigits rest1).map (fun p => (e :: sign :: p.1, p.2))
        else (scanDigits rest).map (fun p => (e :: p.1, p.2))
      | [] => none
    else some ([], s)
  | [] => some ([], s)

/-- The optional fraction of a number (`stateDot`, `stateDot0`). -/
def scanFraction (s : GoString) : Option (GoString × GoString) :=
  match s with
  | dot :: rest =>
    if dot.val = 0x2e then (scanDigits rest).map (fun p => (dot :: p.1, p.2))
    else some ([], s)
  | [] => some ([], s)

/-- The integer part of a number: a single zero, or a non-zero digit and more
digits (`state0`, `state1`). -/
def scanInteger (s : GoString) : Option (GoString × GoString) :=
  match s with
  | d :: rest =>
    if d.val = 0x30 then some ([d], rest)
    else if 0x31 ≤ d.val ∧ d.val ≤ 0x39 then
      some (d :: rest.takeWhile isDigit, rest.dropWhile isDigit)
    else none
  | [] => none

/-- A number without its sign. -/
def scanUnsigned (s : GoString) : Option (GoString × GoString) :=
  match scanInteger s with
  | none => none
  | some (int, s1) =>
    match scanFraction s1 with
    | none => none
    | some (frac, s2) =>
      match scanExponent s2 with
      | none => none
      | some (exp, s3) => some (int ++ frac ++ exp, s3)

/-- The scanner on a number: its text and the input after it. -/
def scanNumber (s : GoString) : Option (GoString × GoString) :=
  match s with
  | c :: rest =>
    if c.val = 0x2d then (scanUnsigned rest).map (fun p => (c :: p.1, p.2))
    else scanUnsigned s
  | [] => none

/-- The scanner on one of the words `true`, `false`, `null`. -/
def scanLiteral (word : GoString) (s : GoString) : Option GoString :=
  if s.take word.length = word then some (s.drop word.length) else none

mutual
/-- The scanner on a value that starts at the head of the input; the first
argument bounds the depth of the calls and the length of the input is enough. -/
def parseValue : Nat → GoString → Option (Node × GoString)
  | 0, _ => none
  | fuel + 1, s =>
    match s with
    | [] => none
    | c :: rest =>
      if c.val = 0x7b then
        match skipSpace rest with
        | [] => none
        | c1 :: rest1 =>
          if c1.val = 0x7d then some (.object [], rest1)
          else (parseMembers fuel (c1 :: rest1)).map (fun p => (.object p.1, p.2))
      else if c.val = 0x5b then
        match skipSpace rest with
        | [] => none
        | c1 :: rest1 =>
          if c1.val = 0x5d then some (.array [], rest1)
          else (parseItems fuel (c1 :: rest1)).map (fun p => (.array p.1, p.2))
      else if c.val = 0x22 then (scanString rest).map (fun p => (.string p.1, p.2))
      else if c.val = 0x74 then (scanLiteral (lit "true") s).map (fun r => (.bool true, r))
      else if c.val = 0x66 then (scanLiteral (lit "false") s).map (fun r => (.bool false, r))
      else if c.val = 0x6e then (scanLiteral (lit "null") s).map (fun r => (.null, r))
      else (scanNumber s).map (fun p => (.number p.1, p.2))
/-- The scanner on the members of an object, from the quote of a key to the
closing brace. -/
def parseMembers : Nat → GoString → Option (List (GoString × Node) × GoString)
  | 0, _ => none
  | fuel + 1, s =>
    match s with
    | [] => none
    | q :: rest =>
      if q.val = 0x22 then
        match scanString rest with
        | none => none
        | some (key, s1) =>
          match skipSpace s1 with
          | [] => none
          | colon :: s2 =>
            if colon.val = 0x3a then
              match parseValue fuel (skipSpace s2) with
              | none => none
              | some (value, s3) =>
                match skipSpace s3 with
                | [] => none
                | d :: s4 =>
                  if d.val = 0x2c then
                    (parseMembers fuel (skipSpace s4)).map (fun p => ((key, value) :: p.1, p.2))
                  else if d.val = 0x7d then some ([(key, value)], s4)
                  else none
            else none
      else none
/-- The scanner on the elements of an array, up to the closing bracket. -/
def parseItems : Nat → GoString → Option (List Node × GoString)
  | 0, _ => none
  | fuel + 1, s =>
    match parseValue fuel s with
    | none => none
    | some (value, s1) =>
      match skipSpace s1 with
      | [] => none
      | d :: s2 =>
        if d.val = 0x2c then (parseItems fuel (skipSpace s2)).map (fun p => (value :: p.1, p.2))
        else if d.val = 0x5d then some ([value], s2)
        else none
end

/-- The function `checkValid`: the input is one JSON value between optional
white space; the value is handed to the decoding pass. -/
def checkValid (data : GoString) : Option Node :=
  match parseValue (data.length + 1) (skipSpace data) with
  | some (tree, rest) => if skipSpace rest = [] then some tree else none
  | none => none

/-- The function `getu4`: the code unit of a `\u` escape at the head of the
input. -/
def getu4 : GoString → Option Nat
  | b :: u :: h1 :: h2 :: h3 :: h4 :: _ =>
    if b.val = 0x5c ∧ u.val = 0x75 then
      match hexValue h1, hexValue h2, hexValue h3, hexValue h4 with
      | some d1, some d2, some d3, some d4 => some (((d1 * 16 + d2) * 16 + d3) * 16 + d4)
      | _, _, _, _ => none
    else none
  | _ => none

/-- `utf16.IsSurrogate`. -/
def IsSurrogate (r : Nat) : Bool := 0xd800 ≤ r && r < 0xe000

/-- `utf16.DecodeRune` on a first code unit and the result of `getu4` for the
second. -/
def utf16DecodeRune (r1 : Nat) (r2 : Option Nat) : Nat :=
  match r2 with
  | some r2 =>
    if 0xd800 ≤ r1 ∧ r1 < 0xdc00 ∧ 0xdc00 ≤ r2 ∧ r2 < 0xe000 then
      (r1 - 0xd800) * 1024 + (r2 - 0xdc00) + 0x10000
    else RuneError
  | none => RuneError

/-- One turn of the loop of `unquoteBytes`: the bytes it writes and the input
it leaves; `none` is its failure. -/
def unquoteStep (s : GoString) : Option (GoString × GoString) :=
  match s with
  | [] => none
  | c :: rest =>
    if c.val = 0x5c then
      match rest with
      | [] => none
      | e :: rest1 =>
        if e.val = 0x22 ∨ e.val = 0x5c ∨ e.val = 0x2f ∨ e.val = 0x27 then some ([e], rest1)
        else if e.val = 0x62 then some ([0x08], rest1)
        else if e.val = 0x66 then some ([0x0c], rest1)
        else if e.val = 0x6e then some ([0x0a], rest1)
        else if e.val = 0x72 then some ([0x0d], rest1)
        else if e.val = 0x74 then some ([0x09], rest1)
        else if e.val = 0x75 then
          match getu4 s with
          | none => none
          | some rr =>
            if IsSurrogate rr then
              if utf16DecodeRune rr (getu4 (s.drop 6)) ≠ RuneError then
                some (EncodeRune (utf16DecodeRune rr (getu4 (s.drop 6))), s.drop 12)
              else some (EncodeRune RuneError, s.drop 6)
            else some (EncodeRune rr, s.drop 6)
        else none
    else if c.val = 0x22 ∨ c.val < 0x20 then none
    else if c.val < 0x80 then some ([c], rest)
    else some (EncodeRune (DecodeRune s).1, s.drop (DecodeRune s).2)

/-- The loop of `unquoteBytes`; every turn consumes input, so as many turns as
the input has bytes are enough. -/
def unquoteLoop : Nat → GoString → Option GoString
  | _, [] => some []
  | 0, _ :: _ => none
  | fuel + 1, c :: rest =>
    match unquoteStep (c :: rest) with
    | none => none
    | some (out, s1) => (unquoteLoop fuel s1).map (out ++ ·)

/-- The function `unquoteBytes` on the bytes between the quotes. -/
def unquote (s : GoString) : Option GoString := unquoteLoop s.length s

/-- ASCII case folding of one byte. -/
def foldByte (c : Fin 256) : Fin 256 :=
  if 0x61 ≤ c.val ∧ c.val ≤ 0x7a then byte (c.val - 0x20) else c

/-- The case-insensitive match of a key with a field name.  The three names
have no `k` and no `s`, the only letters that fold with a non-ASCII rune, so
folding ASCII is all of `bytes.EqualFold` here. -/
def EqualFold (s t : GoString) : Bool := s.map foldByte = t.map foldByte

/-- A JSON value stored into a `string` field: a string is unquoted, `null`
leaves the field, anything else is an `UnmarshalTypeError`. -/
def storeString (cur : GoString) : Node → Option GoString
  | .string raw => unquote raw
  | .null => some cur
  | _ => none

/-- A JSON value stored into a `float64` field: a number is parsed, `null`
leaves the field, anything else is an `UnmarshalTypeError`. -/
def storeFloat (ft : FloatText) (cur : Float64) : Node → Option Float64
  | .number text => ft.parse text
  | .null => some cur
  | _ => none

/-- One member of the object stored into the struct; a key that matches no
field is skipped. -/
def storeMember (ft : FloatText) (v : WeatherResponse) (member : GoString × Node) :
    Option WeatherResponse :=
  match unquote member.1 with
  | none => none
  | some key =>
    if EqualFold key (lit "city") then
      (storeString v.City member.2).map (fun s => { v with City := s })
    else if EqualFold key (lit "temp") then
      (storeFloat ft v.Temp member.2).map (fun t => { v with Temp := t })
    else if EqualFold key (lit "weather") then
      (storeString v.Weather member.2).map (fun s => { v with Weather := s })
    else some v

/-- The members of the object stored in order, so that a later duplicate wins. -/
def storeMembers (ft : FloatText) :
    WeatherResponse → List (GoString × Node) → Option WeatherResponse
  | v, [] => some v
  | v, member :: rest =>
    match storeMember ft v member with
    | none => none
    | some v1 => storeMembers ft v1 rest

/-- `json.Unmarshal(data, &cachedWeather)` on a fresh `cachedWeather`; `none`
is an error.  An object fills the struct, `null` leaves it zero, any other
value is an `UnmarshalTypeError`. -/
def Unmarshal (ft : FloatText) (data : GoString) : Option WeatherResponse :=
  match checkValid data with
  | some (.object members) => storeMembers ft ⟨[], Float64.zero, []⟩ members
  | some .null => some ⟨[], Float64.zero, []⟩
  | _ => none

/-- The decimal text of the two temperatures used in the worked runs, as
`strconv` gives it: `0` for 0.0 and `21.5` for 21.5. -/
def sampleText : FloatText where
  format := fun f =>
    if f = Float64.zero then some (lit "0")
    else if f = ⟨4626744929681408000⟩ then some (lit "21.5")
    else none
  parse := fun s =>
    if s = lit "0" then some Float64.zero
    else if s = lit "21.5" then some ⟨4626744929681408000⟩
    else none

/-- The JSON library of the worked runs with the modelled `Marshal` and
`Unmarshal` in place of its table. -/
def modelJson : Json where
  Unmarshal := Unmarshal sampleText
  Marshal := fun v => (Marshal sampleText v).getD []
  Decode := tableJson.Decode

/-- A world over `modelJson` whose upstream answers every request with status
200 and the given body. -/
def modelWorld (store : Store) (body : GoString) : World where
  redis := ⟨store, false, false⟩
  httpGet := fun _ => .response StatusOK body
  json := modelJson
  apiKey := lit "KEY"

end WeatherApi

namespace TaskTracker

open WeatherApi (GoString lit)

/-- `type Task struct`; an instant of `time.Time` is a number. -/
structure Task where
  ID : Int
  Description : GoString
  Status : GoString
  CreatedAt : Nat
  UpdatedAt : Nat
  deriving DecidableEq, Repr

/-- The file `tasks.json`: absent, unreadable or not a JSON task list, or
holding a task list. -/
inductive TasksFile where
  | missing : TasksFile
  | corrupt : TasksFile
  | holds (tasks : List Task) : TasksFile
  deriving DecidableEq, Repr

/-- The function `loadTasks`: a missing file is the empty list. -/
def loadTasks : TasksFile → Except Unit (List Task)
  | .missing => .ok []
  | .corrupt => .error ()
  | .holds tasks => .ok tasks

/-- The function `saveTasks`, as the file it leaves. -/
def saveTasks (tasks : List Task) : TasksFile := .holds tasks

/-- The function `addTask`; the two instants are its two calls of `time.Now()`. -/
def addTask (description : GoString) (createdAt updatedAt : Nat) (file : TasksFile) :
    TasksFile :=
  match loadTasks file with
  | .error _ => file
  | .ok tasks =>
    let task : Task :=
      { ID := (tasks.length : Int) + 1, Description := description, Status := lit "todo",
        CreatedAt := createdAt, UpdatedAt := updatedAt }
    saveTasks (tasks ++ [task])

/-- The loop of `updateTask`: the first task with the ID gets the new
description; `none` when no task has it. -/
def setDescription (taskID : Int) (newDescription : GoString) (now : Nat) :
    List Task → Option (List Task)
  | [] => none
  | task :: rest =>
    if task.ID = taskID then
      some ({ task with Description := newDescription, UpdatedAt := now } :: rest)
    else (setDescription taskID newDescription now rest).map (task :: ·)

/-- The function `updateTask`. -/
def updateTask (taskID : Int) (newDescription : GoString) (now : Nat) (file : TasksFile) :
    TasksFile :=
  match loadTasks file with
  | .error _ => file
  | .ok tasks =>
    match setDescription taskID newDescription now tasks with
    | some tasks => saveTasks tasks
    | none => file

/-- The function `deleteTask`. -/
def deleteTask (taskID : Int) (file : TasksFile) : TasksFile :=
  match loadTasks file with
  | .error _ => file
  | .ok tasks => saveTasks (tasks.filter (fun task => task.ID ≠ taskID))

/-- The loop of `changeStatus`: the first task with the ID gets the new
status; `none` when no task has it. -/
def setStatus (taskID : Int) (status : GoString) (now : Nat) :
    List Task → Option (List Task)
  | [] => none
  | task :: rest =>
    if task.ID = taskID then
      some ({ task with Status := status, UpdatedAt := now } :: rest)
    else (setStatus taskID status now rest).map (task :: ·)

/-- The function `changeStatus`. -/
def changeStatus (taskID : Int) (status : GoString) (now : Nat) (file : TasksFile) :
    TasksFile :=
  match loadTasks file with
  | .error _ => file
  | .ok tasks =>
    match setStatus taskID status now tasks with
    | some tasks => saveTasks tasks
    | none => file

/-- A command line handled by `main` that can change the file. -/
inductive Command where
  | add (description : GoString) (createdAt updatedAt : Nat) : Command
  | update (taskID : Int) (newDescription : GoString) (now : Nat) : Command
  | delete (taskID : Int) : Command
  | markInProgress (taskID : Int) (now : Nat) : Command
  | markDone (taskID : Int) (now : Nat) : Command

/-- The dispatch of `main` on the command. -/
def exec (file : TasksFile) : Command → TasksFile
  | .add description createdAt updatedAt => addTask description createdAt updatedAt file
  | .update taskID newDescription now => updateTask taskID newDescription now file
  | .delete taskID => deleteTask taskID file
  | .markInProgress taskID now => changeStatus taskID (lit "in-progress") now file
  | .markDone taskID now => changeStatus taskID (lit "done") now file

/-- A sequence of invocations of the program, from the given file. -/
def run (file : TasksFile) (commands : List Command) : TasksFile :=
  commands.foldl exec file

/-- The IDs of the stored tasks, in order. -/
def storedIDs : TasksFile → List Int
  | .holds tasks => tasks.map (·.ID)
  | _ => []

end TaskTracker

namespace WeatherApi

/-! ## Shared facts about the embedding -/

theorem cachedWeather_of_getFails (w : World) (city : GoString)
    (h : w.redis.getFails = true) : cachedWeather w city = none := by
  simp [cachedWeather, Redis.Get, h]

theorem cachedWeather_of_absent (w : World) (city : GoString)
    (h : List.lookup city w.redis.store = none) : cachedWeather w city = none := by
  unfold cachedWeather Redis.Get
  cases w.redis.getFails <;> simp [h]

theorem cachedWeather_of_corrupt (w : World) (city : GoString) (e : Entry)
    (h : List.lookup city w.redis.store = some e) (hu : w.json.Unmarshal e.value = none) :
    cachedWeather w city = none := by
  unfold cachedWeather Redis.Get
  cases w.redis.getFails <;> simp [h, hu]

theorem cachedWeather_of_present (w : World) (city : GoString) (e : Entry)
    (hf : w.redis.getFails = false) (h : List.lookup city w.redis.store = some e) :
    cachedWeather w city = w.json.Unmarshal e.value := by
  simp [cachedWeather, Redis.Get, hf, h]

/-- On a miss the returned value is produced by the fetch path alone: two
worlds that agree on the upstream, the JSON library and the API key, and both
miss, return the same value. -/
theorem getWeather_result_of_miss (w w' : World) (city : GoString)
    (hhttp : w'.httpGet = w.httpGet) (hjson : w'.json = w.json) (hkey : w'.apiKey = w.apiKey)
    (hm : cachedWeather w city = none) (hm' : cachedWeather w' city = none) :
    (getWeather w' city).result = (getWeather w city).result := by
  unfold getWeather
  rw [hm, hm', hhttp, hjson, hkey]
  simp only
  cases w.httpGet (requestURL city w.apiKey) with
  | failed err => rfl
  | response statusCode body =>
    simp only
    split
    · rfl
    · cases w.json.Decode body with
      | error err => rfl
      | ok apiResponse =>
        simp only
        cases normalize city apiResponse <;> rfl

/-! ## Facts about the `encoding/json` model -/

theorem isHex_hexDigit (n : Nat) : isHex (hexDigit n) = true := by
  have h : n % 16 < 16 := Nat.mod_lt _ (by decide)
  unfold hexDigit
  generalize n % 16 = m at h
  interval_cases m <;> decide

theorem scanString_cons_plain (c : Fin 256) (t : GoString) (h1 : c.val ≠ 0x22)
    (h2 : c.val ≠ 0x5c) (h3 : 0x20 ≤ c.val) :
    scanString (c :: t) = (scanString t).map (fun p => (c :: p.1, p.2)) := by
  conv => lhs; unfold scanString
  simp [h1, h2, Nat.not_lt.mpr h3]

theorem scanString_escape2 (c e : Fin 256) (t : GoString) (hc : c.val = 0x5c)
    (h : e.val = 0x62 ∨ e.val = 0x66 ∨ e.val = 0x6e ∨ e.val = 0x72 ∨ e.val = 0x74
            ∨ e.val = 0x5c ∨ e.val = 0x2f ∨ e.val = 0x22) :
    scanString (c :: e :: t) = (scanString t).map (fun p => (c :: e :: p.1, p.2)) := by
  conv => lhs; unfold scanString
  simp [h, hc]

theorem scanString_escape6 (c u h1 h2 h3 h4 : Fin 256) (t : GoString)
    (hc : c.val = 0x5c) (hu : u.val = 0x75)
    (x1 : isHex h1 = true) (x2 : isHex h2 = true) (x3 : isHex h3 = true) (x4 : isHex h4 = true) :
    scanString (c :: u :: h1 :: h2 :: h3 :: h4 :: t)
      = (scanString t).map (fun p => (c :: u :: h1 :: h2 :: h3 :: h4 :: p.1, p.2)) := by
  conv => lhs; unfold scanString
  simp [x1, x2, x3, x4, hc, hu]

theorem scanString_escapeByte (b : Fin 256) (t : GoString) :
    scanString (escapeByte b ++ t) = (scanString t).map (fun p => (escapeByte b ++ p.1, p.2)) := by
  unfold escapeByte
  split_ifs with h1 h2 h3 h4 h5 h6 h7
  · simp only [htmlSafe, Bool.and_eq_true, decide_eq_true_eq, bne_iff_ne, ne_eq] at h1
    exact scanString_cons_plain b t (by omega) (by omega) (by omega)
  · exact scanString_escape2 _ b t rfl (by omega)
  · exact scanString_escape2 _ _ t rfl (by decide)
  · exact scanString_escape2 _ _ t rfl (by decide)
  · exact scanString_escape2 _ _ t rfl (by decide)
  · exact scanString_escape2 _ _ t rfl (by decide)
  · exact scanString_escape2 _ _ t rfl (by decide)
  · exact scanString_escape6 _ _ _ _ _ _ t rfl rfl (by decide) (by decide) (isHex_hexDigit _)
      (isHex_hexDigit _)

/-! ### The shape of a decoded rune -/

theorem DecodeRune_two {b b1 : Fin 256} {r : GoString} {c : Nat}
    (h : DecodeRune (b :: b1 :: r) = (c, 2)) :
    0xC2 ≤ b.val ∧ b.val < 0xE0 ∧ 0x80 ≤ b1.val ∧ b1.val ≤ 0xBF ∧
      c = b.val % 32 * 64 + b1.val % 64 := by
  simp only [DecodeRune] at h
  split_ifs at h
  all_goals first
    | (simp only [Prod.mk.injEq] at h; omega)
    | (split at h <;> (try split_ifs at h) <;> simp only [Prod.mk.injEq] at h <;> omega)

theorem DecodeRune_three {b b1 b2 : Fin 256} {r : GoString} {c : Nat}
    (h : DecodeRune (b :: b1 :: b2 :: r) = (c, 3)) :
    0xE0 ≤ b.val ∧ b.val < 0xF0 ∧ acceptLo b.val ≤ b1.val ∧ b1.val ≤ acceptHi b.val ∧
      0x80 ≤ b2.val ∧ b2.val ≤ 0xBF ∧
      c = b.val % 16 * 4096 + b1.val % 64 * 64 + b2.val % 64 := by
  simp only [DecodeRune] at h
  split_ifs at h
  all_goals first
    | (simp only [Prod.mk.injEq] at h; omega)
    | (split at h <;> (try split_ifs at h) <;> simp only [Prod.mk.injEq] at h <;> omega)

theorem DecodeRune_four {b b1 b2 b3 : Fin 256} {r : GoString} {c : Nat}
    (h : DecodeRune (b :: b1 :: b2 :: b3 :: r) = (c, 4)) :
    0xF0 ≤ b.val ∧ b.val < 0xF5 ∧ acceptLo b.val ≤ b1.val ∧ b1.val ≤ acceptHi b.val ∧
      0x80 ≤ b2.val ∧ b2.val ≤ 0xBF ∧ 0x80 ≤ b3.val ∧ b3.val ≤ 0xBF ∧
      c = b.val % 8 * 262144 + b1.val % 64 * 4096 + b2.val % 64 * 64 + b3.val % 64 := by
  simp only [DecodeRune] at h
  split_ifs at h
  all_goals (simp only [Prod.mk.injEq] at h; omega)

theorem scanString_nil_quote (c : Fin 256) (rest : GoString) (hc : c.val = 0x22) :
    scanString (c :: rest) = some ([], rest) := by
  conv => lhs; unfold scanString
  simp [hc]

theorem acceptLo_ge (p : Nat) : 0x80 ≤ acceptLo p := by
  unfold acceptLo; split_ifs <;> omega

theorem acceptHi_le (p : Nat) : acceptHi p ≤ 0xBF := by
  unfold acceptHi; split_ifs <;> omega

theorem scanString_quoteBody_aux (rest : GoString) :
    ∀ (n : Nat) (s : GoString), s.length ≤ n →
      scanString (quoteBody s ++ 0x22 :: rest) = some (quoteBody s, rest)
  | _, [], _ => by
    simp only [quoteBody, List.nil_append]
    exact scanString_nil_quote _ _ rfl
  | 0, _ :: _, hl => by simp at hl
  | n + 1, b :: r, hl => by
    have ih := scanString_quoteBody_aux rest n
    have hl' : r.length ≤ n := by simpa using hl
    rw [quoteBody.eq_def]
    dsimp only
    split_ifs with hb
    · rw [List.append_assoc, scanString_escapeByte, ih r hl']
      rfl
    · split
      · rename_i c b1 b2 b3 rest4 heq
        obtain ⟨h0, _, h1, _, h2, _, h3, _, _⟩ := DecodeRune_four heq
        have := acceptLo_ge b.val
        simp only [List.length_cons] at hl'
        simp only [List.cons_append]
        rw [scanString_cons_plain b _ (by omega) (by omega) (by omega),
          scanString_cons_plain b1 _ (by omega) (by omega) (by omega),
          scanString_cons_plain b2 _ (by omega) (by omega) (by omega),
          scanString_cons_plain b3 _ (by omega) (by omega) (by omega),
          ih rest4 (by omega)]
        rfl
      · rename_i c b1 b2 rest3 heq
        obtain ⟨h0, _, h1, _, h2, _, _⟩ := DecodeRune_three heq
        have := acceptLo_ge b.val
        simp only [List.length_cons] at hl'
        split_ifs
        · rw [List.append_assoc]
          simp only [List.cons_append, List.nil_append]
          rw [scanString_escape6 _ _ _ _ _ _ _ rfl rfl (by decide) (by decide) (by decide)
            (isHex_hexDigit _), ih rest3 (by omega)]
          rfl
        · simp only [List.cons_append]
          rw [scanString_cons_plain b _ (by omega) (by omega) (by omega),
            scanString_cons_plain b1 _ (by omega) (by omega) (by omega),
            scanString_cons_plain b2 _ (by omega) (by omega) (by omega),
            ih rest3 (by omega)]
          rfl
      · rename_i c b1 rest2 heq
        obtain ⟨h0, _, h1, _, _⟩ := DecodeRune_two heq
        simp only [List.length_cons] at hl'
        simp only [List.cons_append]
        rw [scanString_cons_plain b _ (by omega) (by omega) (by omega),
          scanString_cons_plain b1 _ (by omega) (by omega) (by omega),
          ih rest2 (by omega)]
        rfl
      · rw [List.append_assoc]
        simp only [List.cons_append, List.nil_append]
        rw [scanString_escape6 _ _ _ _ _ _ _ rfl rfl (by decide) (by decide) (by decide)
          (by decide), ih _ hl']
        rfl

theorem scanString_quoteBody (s rest : GoString) :
    scanString (quoteBody s ++ 0x22 :: rest) = some (quoteBody s, rest) :=
  scanString_quoteBody_aux rest s.length s (Nat.le_refl _)

/-! ### `unquote` after `quoteBody` -/

theorem hexValue_hexDigit (n : Nat) : hexValue (hexDigit n) = some (n % 16) := by
  have h : n % 16 < 16 := Nat.mod_lt _ (by decide)
  unfold hexDigit
  generalize n % 16 = m at h
  interval_cases m <;> decide

theorem byte_val (b : Fin 256) : byte b.val = b := by
  apply Fin.ext
  simp [byte, Fin.ofNat, Nat.mod_eq_of_lt b.isLt]

theorem unquoteStep_plain (c : Fin 256) (t : GoString) (h1 : c.val ≠ 0x22) (h2 : c.val ≠ 0x5c)
    (h3 : 0x20 ≤ c.val) (h4 : c.val < 0x80) :
    unquoteStep (c :: t) = some ([c], t) := by
  simp [unquoteStep, h1, h2, Nat.not_lt.mpr h3, h4]

theorem unquoteStep_escape_same (c e : Fin 256) (t : GoString) (hc : c.val = 0x5c)
    (h : e.val = 0x22 ∨ e.val = 0x5c ∨ e.val = 0x2f ∨ e.val = 0x27) :
    unquoteStep (c :: e :: t) = some ([e], t) := by
  simp [unquoteStep, hc, h]

theorem unquoteStep_u4 (c u h1 h2 h3 h4 : Fin 256) (t : GoString) (rr : Nat)
    (hc : c.val = 0x5c) (hu : u.val = 0x75)
    (hget : getu4 [c, u, h1, h2, h3, h4] = some rr) (hns : IsSurrogate rr = false) :
    unquoteStep (c :: u :: h1 :: h2 :: h3 :: h4 :: t) = some (EncodeRune rr, t) := by
  have hg : getu4 (c :: u :: h1 :: h2 :: h3 :: h4 :: t) = some rr := by
    rw [← hget]; simp only [getu4]
  simp [unquoteStep, hc, hu, hg, hns]

theorem getu4_six (c u h1 h2 h3 h4 : Fin 256) (d1 d2 d3 d4 : Nat)
    (hc : c.val = 0x5c) (hu : u.val = 0x75) (x1 : hexValue h1 = some d1)
    (x2 : hexValue h2 = some d2) (x3 : hexValue h3 = some d3) (x4 : hexValue h4 = some d4) :
    getu4 [c, u, h1, h2, h3, h4] = some (((d1 * 16 + d2) * 16 + d3) * 16 + d4) := by
  simp [getu4, hc, hu, x1, x2, x3, x4]

theorem unquoteStep_escapeByte (b : Fin 256) (hb : b.val < 0x80) (t : GoString) :
    unquoteStep (escapeByte b ++ t) = some ([b], t) := by
  unfold escapeByte
  split_ifs with h1 h2 h3 h4 h5 h6 h7
  · simp only [htmlSafe, Bool.and_eq_true, decide_eq_true_eq, bne_iff_ne, ne_eq] at h1
    exact unquoteStep_plain b t (by omega) (by omega) (by omega) hb
  · exact unquoteStep_escape_same _ b t rfl (by omega)
  · have : b = 0x08 := Fin.ext h3
    subst this; rfl
  · have : b = 0x0c := Fin.ext h4
    subst this; rfl
  · have : b = 0x0a := Fin.ext h5
    subst this; rfl
  · have : b = 0x0d := Fin.ext h6
    subst this; rfl
  · have : b = 0x09 := Fin.ext h7
    subst this; rfl
  · have hget : getu4 [0x5c, 0x75, 0x30, 0x30, hexDigit (b.val / 16), hexDigit b.val]
        = some b.val := by
      rw [getu4_six _ _ _ _ _ _ 0 0 (b.val / 16 % 16) (b.val % 16) rfl rfl (by decide)
        (by decide) (hexValue_hexDigit _) (hexValue_hexDigit _)]
      have := b.isLt
      congr 1
      omega
    have hns : IsSurrogate b.val = false := by
      simp [IsSurrogate]; omega
    have henc : EncodeRune b.val = [b] := by
      simp [EncodeRune, byte_val]; omega
    rw [← henc]
    exact unquoteStep_u4 _ _ _ _ _ _ t b.val rfl rfl hget hns

theorem DecodeRune_two_of {b b1 : Fin 256} (t : GoString)
    (h0 : 0xC2 ≤ b.val) (h0' : b.val < 0xE0) (h1 : 0x80 ≤ b1.val) (h1' : b1.val ≤ 0xBF) :
    DecodeRune (b :: b1 :: t) = (b.val % 32 * 64 + b1.val % 64, 2) := by
  simp only [DecodeRune]
  rw [if_neg (by omega), if_neg (by omega), if_pos h0', if_pos ⟨h1, h1'⟩]

theorem DecodeRune_three_of {b b1 b2 : Fin 256} (t : GoString)
    (h0 : 0xE0 ≤ b.val) (h0' : b.val < 0xF0) (h1 : acceptLo b.val ≤ b1.val)
    (h1' : b1.val ≤ acceptHi b.val) (h2 : 0x80 ≤ b2.val) (h2' : b2.val ≤ 0xBF) :
    DecodeRune (b :: b1 :: b2 :: t)
      = (b.val % 16 * 4096 + b1.val % 64 * 64 + b2.val % 64, 3) := by
  simp only [DecodeRune]
  rw [if_neg (by omega), if_neg (by omega), if_neg (by omega), if_pos h0',
    if_pos ⟨h1, h1', h2, h2'⟩]

theorem DecodeRune_four_of {b b1 b2 b3 : Fin 256} (t : GoString)
    (h0 : 0xF0 ≤ b.val) (h0' : b.val < 0xF5) (h1 : acceptLo b.val ≤ b1.val)
    (h1' : b1.val ≤ acceptHi b.val) (h2 : 0x80 ≤ b2.val) (h2' : b2.val ≤ 0xBF)
    (h3 : 0x80 ≤ b3.val) (h3' : b3.val ≤ 0xBF) :
    DecodeRune (b :: b1 :: b2 :: b3 :: t)
      = (b.val % 8 * 262144 + b1.val % 64 * 4096 + b2.val % 64 * 64 + b3.val % 64, 4) := by
  simp only [DecodeRune]
  rw [if_neg (by omega), if_neg (by omega), if_neg (by omega), if_neg (by omega), if_pos h0',
    if_pos ⟨h1, h1', h2, h2', h3, h3'⟩]

theorem byte_eq {n : Nat} {b : Fin 256} (h : n = b.val) : byte n = b := by
  subst h; exact byte_val b

theorem EncodeRune_two {b b1 : Fin 256}
    (h0 : 0xC2 ≤ b.val) (h0' : b.val < 0xE0) (h1 : 0x80 ≤ b1.val) (h1' : b1.val ≤ 0xBF) :
    EncodeRune (b.val % 32 * 64 + b1.val % 64) = [b, b1] := by
  unfold EncodeRune
  rw [if_neg (by omega), if_pos (by omega), byte_eq (b := b) (by omega),
    byte_eq (b := b1) (by omega)]

theorem EncodeRune_three {b b1 b2 : Fin 256}
    (h0 : 0xE0 ≤ b.val) (h0' : b.val < 0xF0) (h1 : acceptLo b.val ≤ b1.val)
    (h1' : b1.val ≤ acceptHi b.val) (h2 : 0x80 ≤ b2.val) (h2' : b2.val ≤ 0xBF) :
    EncodeRune (b.val % 16 * 4096 + b1.val % 64 * 64 + b2.val % 64) = [b, b1, b2] := by
  have hlo : 0x80 ≤ b1.val ∧ (b.val = 0xE0 → 0xA0 ≤ b1.val) := by
    unfold acceptLo at h1; split_ifs at h1 <;> omega
  have hhi : b1.val ≤ 0xBF ∧ (b.val = 0xED → b1.val ≤ 0x9F) := by
    unfold acceptHi at h1'; split_ifs at h1' <;> omega
  unfold EncodeRune
  rw [if_neg (by omega), if_neg (by omega), if_neg (by omega), if_pos (by omega),
    byte_eq (b := b) (by omega), byte_eq (b := b1) (by omega), byte_eq (b := b2) (by omega)]

theorem EncodeRune_four {b b1 b2 b3 : Fin 256}
    (h0 : 0xF0 ≤ b.val) (h0' : b.val < 0xF5) (h1 : acceptLo b.val ≤ b1.val)
    (h1' : b1.val ≤ acceptHi b.val) (h2 : 0x80 ≤ b2.val) (h2' : b2.val ≤ 0xBF)
    (h3 : 0x80 ≤ b3.val) (h3' : b3.val ≤ 0xBF) :
    EncodeRune (b.val % 8 * 262144 + b1.val % 64 * 4096 + b2.val % 64 * 64 + b3.val % 64)
      = [b, b1, b2, b3] := by
  have hlo : 0x80 ≤ b1.val ∧ (b.val = 0xF0 → 0x90 ≤ b1.val) := by
    unfold acceptLo at h1; split_ifs at h1 <;> omega
  have hhi : b1.val ≤ 0xBF ∧ (b.val = 0xF4 → b1.val ≤ 0x8F) := by
    unfold acceptHi at h1'; split_ifs at h1' <;> omega
  unfold EncodeRune
  rw [if_neg (by omega), if_neg (by omega), if_neg (by omega), if_neg (by omega),
    byte_eq (b := b) (by omega), byte_eq (b := b1) (by omega), byte_eq (b := b2) (by omega),
    byte_eq (b := b3) (by omega)]

theorem unquoteStep_raw (c : Fin 256) (t : GoString) (h : 0x80 ≤ c.val) :
    unquoteStep (c :: t)
      = some (EncodeRune (DecodeRune (c :: t)).1, (c :: t).drop (DecodeRune (c :: t)).2) := by
  simp only [unquoteStep]
  rw [if_neg (by omega), if_neg (by omega), if_neg (by omega)]

theorem unquoteLoop_step {s1 out t : GoString} (fuel : Nat)
    (h : unquoteStep s1 = some (out, t)) :
    unquoteLoop (fuel + 1) s1 = (unquoteLoop fuel t).map (out ++ ·) := by
  cases s1 with
  | nil => simp [unquoteStep] at h
  | cons c rest => simp only [unquoteLoop, h]

theorem unquoteLoop_nil (fuel : Nat) : unquoteLoop fuel [] = some [] := by
  cases fuel <;> rfl

theorem escapeByte_length_pos (b : Fin 256) : 1 ≤ (escapeByte b).length := by
  unfold escapeByte
  split_ifs <;> simp

theorem unquoteLoop_quoteBody :
    ∀ (n : Nat) (s : GoString), s.length ≤ n → ValidString s = true →
      ∀ fuel, (quoteBody s).length ≤ fuel → unquoteLoop fuel (quoteBody s) = some s
  | _, [], _, _, fuel, _ => by
    simp only [quoteBody]
    exact unquoteLoop_nil fuel
  | 0, _ :: _, hl, _, _, _ => by simp at hl
  | n + 1, b :: r, hl, hv, fuel, hf => by
    have ih := unquoteLoop_quoteBody n
    rw [ValidString.eq_def] at hv
    dsimp only at hv
    rw [quoteBody.eq_def] at hf ⊢
    dsimp only at hf ⊢
    by_cases hb : b.val < 0x80
    · rw [if_pos hb] at hv hf ⊢
      have hpos := escapeByte_length_pos b
      rw [List.length_append] at hf
      obtain ⟨f, rfl⟩ : ∃ f, fuel = f + 1 := ⟨fuel - 1, by omega⟩
      rw [unquoteLoop_step f (unquoteStep_escapeByte b hb _),
        ih r (by simpa using hl) hv f (by omega)]
      rfl
    · rw [if_neg hb] at hv hf ⊢
      split at hv
      · rename_i c b1 b2 b3 rest4 heq
        obtain ⟨h0, h0', h1, h1', h2, h2', h3, h3', hc⟩ := DecodeRune_four heq
        simp only [heq] at hf ⊢
        simp only [List.length_cons] at hf hl
        obtain ⟨f, rfl⟩ : ∃ f, fuel = f + 1 := ⟨fuel - 1, by omega⟩
        have hstep : unquoteStep (b :: b1 :: b2 :: b3 :: quoteBody rest4)
            = some ([b, b1, b2, b3], quoteBody rest4) := by
          rw [unquoteStep_raw b _ (by omega),
            DecodeRune_four_of _ h0 h0' h1 h1' h2 h2' h3 h3',
            EncodeRune_four h0 h0' h1 h1' h2 h2' h3 h3']
          rfl
        rw [unquoteLoop_step f hstep, ih rest4 (by omega) hv f (by omega)]
        rfl
      · rename_i c b1 b2 rest3 heq
        obtain ⟨h0, h0', h1, h1', h2, h2', hc⟩ := DecodeRune_three heq
        simp only [heq] at hf ⊢
        have henc := EncodeRune_three h0 h0' h1 h1' h2 h2'
        rw [← hc] at henc
        simp only [List.length_cons] at hl
        split_ifs at hf ⊢ with hsep
        · simp only [List.length_append, List.length_cons, List.length_nil] at hf
          obtain ⟨f, rfl⟩ : ∃ f, fuel = f + 1 := ⟨fuel - 1, by omega⟩
          have hget : getu4 [0x5c, 0x75, 0x32, 0x30, 0x32, hexDigit c] = some c := by
            rw [getu4_six _ _ _ _ _ _ 2 0 2 (c % 16) rfl rfl (by decide) (by decide)
              (by decide) (hexValue_hexDigit _)]
            congr 1
            omega
          have hns : IsSurrogate c = false := by
            rcases hsep with h | h <;> subst h <;> rfl
          have hstep : unquoteStep ([0x5c, 0x75, 0x32, 0x30, 0x32, hexDigit c] ++ quoteBody rest3)
              = some ([b, b1, b2], quoteBody rest3) := by
            rw [← henc]
            exact unquoteStep_u4 _ _ _ _ _ _ _ c rfl rfl hget hns
          rw [unquoteLoop_step f hstep, ih rest3 (by omega) hv f (by omega)]
          rfl
        · simp only [List.length_cons] at hf
          obtain ⟨f, rfl⟩ : ∃ f, fuel = f + 1 := ⟨fuel - 1, by omega⟩
          have hstep : unquoteStep (b :: b1 :: b2 :: quoteBody rest3)
              = some ([b, b1, b2], quoteBody rest3) := by
            rw [unquoteStep_raw b _ (by omega), DecodeRune_three_of _ h0 h0' h1 h1' h2 h2',
              EncodeRune_three h0 h0' h1 h1' h2 h2']
            rfl
          rw [unquoteLoop_step f hstep, ih rest3 (by omega) hv f (by omega)]
          rfl
      · rename_i c b1 rest2 heq
        obtain ⟨h0, h0', h1, h1', hc⟩ := DecodeRune_two heq
        simp only [heq] at hf ⊢
        simp only [List.length_cons] at hf hl
        obtain ⟨f, rfl⟩ : ∃ f, fuel = f + 1 := ⟨fuel - 1, by omega⟩
        have hstep : unquoteStep (b :: b1 :: quoteBody rest2)
            = some ([b, b1], quoteBody rest2) := by
          rw [unquoteStep_raw b _ (by omega), DecodeRune_two_of _ h0 h0' h1 h1',
            EncodeRune_two h0 h0' h1 h1']
          rfl
        rw [unquoteLoop_step f hstep, ih rest2 (by omega) hv f (by omega)]
        rfl
      · exact absurd hv (by decide)

theorem unquote_quoteBody (s : GoString) (hv : ValidString s = true) :
    unquote (quoteBody s) = some s :=
  unquoteLoop_quoteBody s.length s (Nat.le_refl _) hv _ (Nat.le_refl _)

/-! ### The scanner on the marshalled object -/

theorem skipSpace_cons (c : Fin 256) (t : GoString) (h : isSpace c = false) :
    skipSpace (c :: t) = c :: t := by
  simp [skipSpace, List.dropWhile, h]

theorem parseValue_string (fuel : Nat) (q : Fin 256) (s tail : GoString) (hq : q.val = 0x22) :
    parseValue (fuel + 1) (q :: (quoteBody s ++ 0x22 :: tail))
      = some (.string (quoteBody s), tail) := by
  simp only [parseValue]
  rw [if_neg (by omega), if_neg (by omega), if_pos hq, scanString_quoteBody]
  rfl

theorem parseMembers_cons (fuel : Nat) (q colon d : Fin 256) (key s2 s4 : GoString) (v : Node)
    (hq : q.val = 0x22) (hcolon : colon.val = 0x3a) (hd : d.val = 0x2c)
    (hv : parseValue fuel (skipSpace s2) = some (v, d :: s4)) :
    parseMembers (fuel + 1) (q :: (quoteBody key ++ 0x22 :: colon :: s2))
      = (parseMembers fuel (skipSpace s4)).map (fun p => ((quoteBody key, v) :: p.1, p.2)) := by
  simp only [parseMembers]
  rw [if_pos hq, scanString_quoteBody]
  have hc : isSpace colon = false := by simp [isSpace, hcolon]
  have hdd : isSpace d = false := by simp [isSpace, hd]
  simp only [skipSpace_cons _ _ hc, if_pos hcolon, hv, skipSpace_cons _ _ hdd, if_pos hd]

theorem parseMembers_last (fuel : Nat) (q colon d : Fin 256) (key s2 s4 : GoString) (v : Node)
    (hq : q.val = 0x22) (hcolon : colon.val = 0x3a) (hd : d.val = 0x7d)
    (hv : parseValue fuel (skipSpace s2) = some (v, d :: s4)) :
    parseMembers (fuel + 1) (q :: (quoteBody key ++ 0x22 :: colon :: s2))
      = some ([(quoteBody key, v)], s4) := by
  simp only [parseMembers]
  rw [if_pos hq, scanString_quoteBody]
  have hc : isSpace colon = false := by simp [isSpace, hcolon]
  have hdd : isSpace d = false := by simp [isSpace, hd]
  simp only [skipSpace_cons _ _ hc, if_pos hcolon, hv, skipSpace_cons _ _ hdd]
  rw [if_neg (by omega), if_pos hd]

/-! ### Number text followed by a comma -/

theorem takeWhile_append_stop (p : Fin 256 → Bool) (l : GoString) (d : Fin 256)
    (rest : GoString) (hd : p d = false) :
    (l ++ d :: rest).takeWhile p = l.takeWhile p := by
  induction l with
  | nil => simp [List.takeWhile, hd]
  | cons a l ih =>
    simp only [List.cons_append, List.takeWhile]
    cases p a <;> simp [ih]

theorem dropWhile_append_stop (p : Fin 256 → Bool) (l : GoString) (d : Fin 256)
    (rest : GoString) (hd : p d = false) :
    (l ++ d :: rest).dropWhile p = l.dropWhile p ++ d :: rest := by
  induction l with
  | nil => simp [List.dropWhile, hd]
  | cons a l ih =>
    simp only [List.cons_append, List.dropWhile]
    cases p a <;> simp [ih]

theorem isDigit_comma (d : Fin 256) (hd : d.val = 0x2c) : isDigit d = false := by
  simp [isDigit, hd]

theorem scanDigits_append (s : GoString) (d : Fin 256) (rest : GoString) (hd : d.val = 0x2c) :
    scanDigits (s ++ d :: rest) = (scanDigits s).map (fun p => (p.1, p.2 ++ d :: rest)) := by
  unfold scanDigits
  rw [takeWhile_append_stop _ _ _ _ (isDigit_comma d hd),
    dropWhile_append_stop _ _ _ _ (isDigit_comma d hd)]
  split_ifs <;> rfl

theorem scanExponent_append (s : GoString) (d : Fin 256) (rest : GoString) (hd : d.val = 0x2c) :
    scanExponent (s ++ d :: rest) = (scanExponent s).map (fun p => (p.1, p.2 ++ d :: rest)) := by
  cases s with
  | nil =>
    simp only [List.nil_append, scanExponent]
    rw [if_neg (by omega)]; rfl
  | cons e r =>
    cases r with
    | nil =>
      simp only [List.cons_append, List.nil_append, scanExponent]
      split_ifs with h1 h2
      · omega
      · have := scanDigits_append [] d rest hd
        simp only [List.nil_append] at this
        rw [this]; rfl
      · rfl
    | cons sign r1 =>
      simp only [List.cons_append, scanExponent]
      split_ifs with h1 h2
      · rw [scanDigits_append _ _ _ hd]
        cases scanDigits r1 <;> rfl
      · have := scanDigits_append (sign :: r1) d rest hd
        simp only [List.cons_append] at this
        rw [this]
        cases scanDigits (sign :: r1) <;> rfl
      · rfl

theorem scanFraction_append (s : GoString) (d : Fin 256) (rest : GoString) (hd : d.val = 0x2c) :
    scanFraction (s ++ d :: rest) = (scanFraction s).map (fun p => (p.1, p.2 ++ d :: rest)) := by
  cases s with
  | nil =>
    simp only [List.nil_append, scanFraction]
    rw [if_neg (by omega)]; rfl
  | cons dot r =>
    simp only [List.cons_append, scanFraction]
    split_ifs with h1
    · rw [scanDigits_append _ _ _ hd]
      cases scanDigits r <;> rfl
    · rfl

theorem scanInteger_append (s : GoString) (d : Fin 256) (rest : GoString) (hd : d.val = 0x2c) :
    scanInteger (s ++ d :: rest) = (scanInteger s).map (fun p => (p.1, p.2 ++ d :: rest)) := by
  cases s with
  | nil =>
    simp only [List.nil_append, scanInteger]
    rw [if_neg (by omega), if_neg (by omega)]; rfl
  | cons c r =>
    simp only [List.cons_append, scanInteger]
    split_ifs with h1 h2
    · rfl
    · rw [takeWhile_append_stop _ _ _ _ (isDigit_comma d hd),
        dropWhile_append_stop _ _ _ _ (isDigit_comma d hd)]
      rfl
    · rfl

theorem scanUnsigned_append (s : GoString) (d : Fin 256) (rest : GoString) (hd : d.val = 0x2c) :
    scanUnsigned (s ++ d :: rest) = (scanUnsigned s).map (fun p => (p.1, p.2 ++ d :: rest)) := by
  unfold scanUnsigned
  rw [scanInteger_append _ _ _ hd]
  cases scanInteger s with
  | none => rfl
  | some p =>
    obtain ⟨int, s1⟩ := p
    simp only [Option.map_some']
    rw [scanFraction_append _ _ _ hd]
    cases scanFraction s1 with
    | none => rfl
    | some p =>
      obtain ⟨frac, s2⟩ := p
      simp only [Option.map_some']
      rw [scanExponent_append _ _ _ hd]
      cases scanExponent s2 with
      | none => rfl
      | some p => rfl

theorem scanNumber_append (s : GoString) (d : Fin 256) (rest : GoString) (hd : d.val = 0x2c) :
    scanNumber (s ++ d :: rest) = (scanNumber s).map (fun p => (p.1, p.2 ++ d :: rest)) := by
  cases s with
  | nil =>
    have h := scanUnsigned_append [] d rest hd
    simp only [List.nil_append] at h
    simp only [List.nil_append, scanNumber]
    rw [if_neg (by omega), h]
    rfl
  | cons c r =>
    simp only [List.cons_append, scanNumber]
    split_ifs with h1
    · rw [scanUnsigned_append _ _ _ hd]
      cases scanUnsigned r <;> rfl
    · exact scanUnsigned_append (c :: r) d rest hd

theorem scanNumber_head {c : Fin 256} {r : GoString} {p : GoString × GoString}
    (h : scanNumber (c :: r) = some p) :
    c.val = 0x2d ∨ (0x30 ≤ c.val ∧ c.val ≤ 0x39) := by
  by_contra hne
  simp only [scanNumber] at h
  rw [if_neg (by omega)] at h
  simp only [scanUnsigned, scanInteger] at h
  rw [if_neg (by omega), if_neg (by omega)] at h
  cases h

theorem parseValue_number (fuel : Nat) (text : GoString) (d : Fin 256) (rest : GoString)
    (hd : d.val = 0x2c) (hnum : scanNumber text = some (text, [])) :
    parseValue (fuel + 1) (skipSpace (text ++ d :: rest)) = some (.number text, d :: rest) := by
  cases text with
  | nil => simp [scanNumber] at hnum
  | cons c t =>
    have hc := scanNumber_head hnum
    have hs : isSpace c = false := by
      simp only [isSpace]
      rcases hc with h | h <;> simp <;> omega
    have hscan := scanNumber_append (c :: t) d rest hd
    rw [hnum] at hscan
    simp only [List.cons_append] at hscan ⊢
    rw [skipSpace_cons _ _ hs]
    simp only [parseValue]
    rw [if_neg (by omega), if_neg (by omega), if_neg (by omega), if_neg (by omega),
      if_neg (by omega), if_neg (by omega), hscan]
    rfl

/-! ### Reading back what `Marshal` wrote -/

theorem appendString_append (s t : GoString) :
    appendString s ++ t = 0x22 :: (quoteBody s ++ 0x22 :: t) := by
  simp [appendString]

theorem skipSpace_appendString (s t : GoString) :
    skipSpace (appendString s ++ t) = appendString s ++ t := by
  rw [appendString_append]
  exact skipSpace_cons _ _ (by decide)

theorem parseValue_object (fuel : Nat) (c q : Fin 256) (s rest : GoString)
    (members : List (GoString × Node)) (hc : c.val = 0x7b) (hq : q.val = 0x22)
    (hm : parseMembers fuel (q :: s) = some (members, rest)) :
    parseValue (fuel + 1) (c :: q :: s) = some (.object members, rest) := by
  have hs : isSpace q = false := by simp [isSpace, hq]
  simp only [parseValue]
  rw [if_pos hc, skipSpace_cons _ _ hs]
  simp only []
  rw [if_neg (by omega), hm]
  rfl

theorem checkValid_Marshal (v : WeatherResponse) (text : GoString)
    (hnum : scanNumber text = some (text, [])) :
    checkValid (0x7b :: (appendString (lit "city") ++ 0x3a :: (appendString v.City
      ++ 0x2c :: (appendString (lit "temp") ++ 0x3a :: (text
      ++ 0x2c :: (appendString (lit "weather") ++ 0x3a :: (appendString v.Weather
      ++ [0x7d])))))))
    = some (.object [(quoteBody (lit "city"), .string (quoteBody v.City)),
        (quoteBody (lit "temp"), .number text),
        (quoteBody (lit "weather"), .string (quoteBody v.Weather))]) := by
  unfold checkValid
  rw [skipSpace_cons _ _ (by decide)]
  generalize hlen : (List.length _ + 1) = fuel
  obtain ⟨f, rfl⟩ : ∃ f, fuel = f + 5 := by
    refine ⟨fuel - 5, ?_⟩
    simp [appendString] at hlen
    omega
  clear hlen
  have h3v : parseValue (f + 1) (skipSpace (appendString v.Weather ++ [0x7d]))
      = some (.string (quoteBody v.Weather), [0x7d]) := by
    rw [skipSpace_appendString, appendString_append]
    exact parseValue_string f _ _ _ rfl
  have h3 : parseMembers (f + 2) (appendString (lit "weather") ++ 0x3a ::
      (appendString v.Weather ++ [0x7d]))
      = some ([(quoteBody (lit "weather"), .string (quoteBody v.Weather))], []) := by
    rw [appendString_append]
    exact parseMembers_last (f + 1) _ _ _ _ _ _ _ rfl rfl rfl h3v
  have h2v := parseValue_number (f + 1) text 0x2c
    (appendString (lit "weather") ++ 0x3a :: (appendString v.Weather ++ [0x7d])) rfl hnum
  have h2 : parseMembers (f + 3) (appendString (lit "temp") ++ 0x3a :: (text
      ++ 0x2c :: (appendString (lit "weather") ++ 0x3a :: (appendString v.Weather ++ [0x7d]))))
      = some ([(quoteBody (lit "temp"), .number text),
          (quoteBody (lit "weather"), .string (quoteBody v.Weather))], []) := by
    rw [appendString_append, parseMembers_cons (f + 2) _ _ _ _ _ _ _ rfl rfl rfl h2v,
      skipSpace_appendString, h3]
    rfl
  have h1v : parseValue (f + 3) (skipSpace (appendString v.City
      ++ 0x2c :: (appendString (lit "temp") ++ 0x3a :: (text
      ++ 0x2c :: (appendString (lit "weather") ++ 0x3a :: (appendString v.Weather ++ [0x7d]))))))
      = some (.string (quoteBody v.City), 0x2c :: (appendString (lit "temp") ++ 0x3a :: (text
      ++ 0x2c :: (appendString (lit "weather") ++ 0x3a :: (appendString v.Weather ++ [0x7d]))))) := by
    rw [skipSpace_appendString, appendString_append]
    exact parseValue_string (f + 2) _ _ _ rfl
  have h1 : parseMembers (f + 4) (appendString (lit "city") ++ 0x3a :: (appendString v.City
      ++ 0x2c :: (appendString (lit "temp") ++ 0x3a :: (text
      ++ 0x2c :: (appendString (lit "weather") ++ 0x3a :: (appendString v.Weather ++ [0x7d]))))))
      = some ([(quoteBody (lit "city"), .string (quoteBody v.City)),
          (quoteBody (lit "temp"), .number text),
          (quoteBody (lit "weather"), .string (quoteBody v.Weather))], []) := by
    rw [appendString_append, parseMembers_cons (f + 3) _ _ _ _ _ _ _ rfl rfl rfl h1v,
      skipSpace_appendString, h2]
    rfl
  have htop : parseValue (f + 5) (0x7b :: (appendString (lit "city") ++ 0x3a :: (appendString v.City
      ++ 0x2c :: (appendString (lit "temp") ++ 0x3a :: (text
      ++ 0x2c :: (appendString (lit "weather") ++ 0x3a :: (appendString v.Weather ++ [0x7d])))))))
      = some (.object [(quoteBody (lit "city"), .string (quoteBody v.City)),
          (quoteBody (lit "temp"), .number text),
          (quoteBody (lit "weather"), .string (quoteBody v.Weather))], []) := by
    rw [appendString_append] at h1 ⊢
    exact parseValue_object (f + 4) _ _ _ _ _ rfl rfl h1
  rw [htop]
  rfl

theorem storeMembers_Marshal (ft : FloatText) (v : WeatherResponse) (text : GoString)
    (hcity : ValidString v.City = true) (hweather : ValidString v.Weather = true)
    (hparse : ft.parse text = some v.Temp) :
    storeMembers ft ⟨[], Float64.zero, []⟩
      [(quoteBody (lit "city"), .string (quoteBody v.City)),
        (quoteBody (lit "temp"), .number text),
        (quoteBody (lit "weather"), .string (quoteBody v.Weather))] = some v := by
  have k1 : unquote (quoteBody (lit "city")) = some (lit "city") :=
    unquote_quoteBody _ (by decide)
  have k2 : unquote (quoteBody (lit "temp")) = some (lit "temp") :=
    unquote_quoteBody _ (by decide)
  have k3 : unquote (quoteBody (lit "weather")) = some (lit "weather") :=
    unquote_quoteBody _ (by decide)
  have e1 : EqualFold (lit "city") (lit "city") = true := by decide
  have e2 : EqualFold (lit "temp") (lit "city") = false := by decide
  have e3 : EqualFold (lit "temp") (lit "temp") = true := by decide
  have e4 : EqualFold (lit "weather") (lit "city") = false := by decide
  have e5 : EqualFold (lit "weather") (lit "temp") = false := by decide
  have e6 : EqualFold (lit "weather") (lit "weather") = true := by decide
  simp only [storeMembers, storeMember, k1, k2, k3, e1, e2, e3, e4, e5, e6, storeString,
    storeFloat, unquote_quoteBody _ hcity, unquote_quoteBody _ hweather, hparse,
    Option.map_some', if_true, if_false, Bool.false_eq_true]

theorem Unmarshal_Marshal (ft : FloatText) (v : WeatherResponse) (text : GoString)
    (hcity : ValidString v.City = true) (hweather : ValidString v.Weather = true)
    (hformat : ft.format v.Temp = some text) (hnum : scanNumber text = some (text, []))
    (hparse : ft.parse text = some v.Temp) :
    ∃ data, Marshal ft v = some data ∧ Unmarshal ft data = some v := by
  have hm : Marshal ft v = some (0x7b :: (appendString (lit "city") ++ 0x3a ::
      (appendString v.City ++ 0x2c :: (appendString (lit "temp") ++ 0x3a :: (text
      ++ 0x2c :: (appendString (lit "weather") ++ 0x3a :: (appendString v.Weather
      ++ [0x7d]))))))) := by
    simp only [Marshal, hformat]
  refine ⟨_, hm, ?_⟩
  unfold Unmarshal
  rw [checkValid_Marshal v text hnum]
  exact storeMembers_Marshal ft v text hcity hweather hparse

/-! ## The claims about `getWeather` -/

/-- C1, as stated, fails: `getWeather` has no guard on its argument and nothing
trims the city.  The city of one space passes the handler, which then reads
the cache, sends the upstream request, writes the cache and answers 200; and
`getWeather` called with the empty city does the same and returns a record
with no error. -/
theorem getWeather_blank_city_not_rejected :
    (weatherHandler (worldWith emptyRedis (lit "emptyDay")) (lit " ")).status = StatusOK ∧
      (weatherHandler (worldWith emptyRedis (lit "emptyDay")) (lit " ")).events
        = [.cacheGet (lit " "), .httpGet (requestURL (lit " ") (lit "KEY")),
            .cacheSet (lit " ") (lit "record") (10 * Minute)] ∧
      (getWeather (worldWith emptyRedis (lit "emptyDay")) []).result
        = .ok ⟨[], Float64.zero, lit "Unknown"⟩ ∧
      (getWeather (worldWith emptyRedis (lit "emptyDay")) []).events
        = [.cacheGet [], .httpGet (requestURL [] (lit "KEY")),
            .cacheSet [] (lit "record") (10 * Minute)] := by
  refine ⟨rfl, rfl, rfl, rfl⟩

/-- C1, amended: the guard is in `weatherHandler` and compares the untrimmed
parameter with the empty string.  On the empty city the handler answers 400
with `city parameter is required` and makes no cache read, no cache write and
no upstream request, leaving the store as it was; every other city, blank ones
included, is handed to `getWeather`, whose first external call is the cache
read under that city. -/
theorem weatherHandler_empty_city_bad_request (w : World) :
    weatherHandler w [] =
        ⟨StatusBadRequest, .error (lit "city parameter is required"), [], w.redis.store⟩ ∧
      ∀ city : GoString, city ≠ [] →
        (weatherHandler w city).events = (getWeather w city).events ∧
        (getWeather w city).events.head? = some (.cacheGet city) := by
  refine ⟨rfl, fun city hne => ⟨?_, ?_⟩⟩
  · unfold weatherHandler
    rw [if_neg hne]
    simp only
    cases (getWeather w city).result <;> rfl
  · unfold getWeather
    cases cachedWeather w city with
    | some cached => rfl
    | none =>
      simp only
      cases w.httpGet (requestURL city w.apiKey) with
      | failed err => rfl
      | response statusCode body =>
        simp only
        split
        · rfl
        · cases w.json.Decode body with
          | error err => rfl
          | ok apiResponse =>
            simp only
            cases normalize city apiResponse <;> rfl

/-- C2: when the Redis read succeeds and the entry stored under `city`
unmarshals into a record, `getWeather` returns exactly that record with no
error, its only external call is the cache read (no upstream request, no cache
write), and the store, values and expirations, is left as it was. -/
theorem getWeather_cache_hit (w : World) (city : GoString) (e : Entry)
    (cached : WeatherResponse) (_hcity : city ≠ []) (hread : w.redis.getFails = false)
    (hentry : List.lookup city w.redis.store = some e)
    (hvalid : w.json.Unmarshal e.value = some cached) :
    (getWeather w city).result = .ok cached ∧
      (getWeather w city).events = [.cacheGet city] ∧
      (getWeather w city).events.countP Event.isHttpGet = 0 ∧
      (getWeather w city).events.countP Event.isCacheSet = 0 ∧
      (getWeather w city).store = w.redis.store := by
  have hc : cachedWeather w city = some cached := by
    rw [cachedWeather_of_present w city e hread hentry, hvalid]
  unfold getWeather
  rw [hc]
  exact ⟨rfl, rfl, rfl, rfl, rfl⟩

/-- C2 at a concrete run: a warm cache for `seoul` whose entry unmarshals. -/
theorem getWeather_cache_hit_witness :
    seoul ≠ [] ∧
      (getWeather (worldWith warmRedis (lit "rainDay")) seoul).result = .ok clearSeoul ∧
      (getWeather (worldWith warmRedis (lit "rainDay")) seoul).events = [.cacheGet seoul] ∧
      (getWeather (worldWith warmRedis (lit "rainDay")) seoul).store = warmRedis.store := by
  have h := getWeather_cache_hit (worldWith warmRedis (lit "rainDay")) seoul
    ⟨lit "cached", 10 * Minute⟩ clearSeoul (by decide) rfl rfl rfl
  exact ⟨by decide, h.1, h.2.1, h.2.2.2.2⟩

/-- C3: when the key `city` is absent from the store, `getWeather` makes
exactly one upstream request; and when that request is answered with status
200 and a body that decodes to a payload which the mapping step accepts, the
run makes exactly one cache write, `SET city (json.Marshal record)` with an
expiration of ten minutes (600 000 000 000 ns), the key being the city as
given, and returns that record with no error. -/
theorem getWeather_cache_miss (w : World) (city : GoString)
    (habsent : List.lookup city w.redis.store = none) :
    (getWeather w city).events.countP Event.isHttpGet = 1 ∧
      ∀ (body : GoString) (apiResponse : JMap) (weather : WeatherResponse),
        w.httpGet (requestURL city w.apiKey) = .response StatusOK body →
        w.json.Decode body = .ok apiResponse →
        normalize city apiResponse = .ok weather →
          (getWeather w city).result = .ok weather ∧
          (getWeather w city).events =
            [.cacheGet city, .httpGet (requestURL city w.apiKey),
              .cacheSet city (w.json.Marshal weather) 600000000000] ∧
          (getWeather w city).events.countP Event.isCacheSet = 1 ∧
          (getWeather w city).store = w.redis.Set city (w.json.Marshal weather) (10 * Minute) := by
  have hm := cachedWeather_of_absent w city habsent
  constructor
  · unfold getWeather
    rw [hm]
    simp only
    cases w.httpGet (requestURL city w.apiKey) with
    | failed err => rfl
    | response statusCode body =>
      simp only
      split
      · rfl
      · cases w.json.Decode body with
        | error err => rfl
        | ok apiResponse =>
          simp only
          cases normalize city apiResponse <;> rfl
  · intro body apiResponse weather hresp hdec hnorm
    unfold getWeather
    rw [hm]
    simp only [hresp, hdec, hnorm]
    exact ⟨rfl, rfl, rfl, rfl⟩

/-- C3 at a concrete run: an empty cache and an upstream answer with one rainy day. -/
theorem getWeather_cache_miss_witness :
    (getWeather (worldWith emptyRedis (lit "rainDay")) seoul).events.countP Event.isHttpGet = 1 ∧
      (getWeather (worldWith emptyRedis (lit "rainDay")) seoul).result
        = .ok ⟨seoul, ⟨4626744929681408000⟩, lit "Rain"⟩ ∧
      (getWeather (worldWith emptyRedis (lit "rainDay")) seoul).store
        = [(seoul, ⟨lit "record", 600000000000⟩)] := by
  have h := getWeather_cache_miss (worldWith emptyRedis (lit "rainDay")) seoul rfl
  have h2 := h.2 (lit "rainDay") _ ⟨seoul, ⟨4626744929681408000⟩, lit "Rain"⟩ rfl rfl rfl
  exact ⟨h.1, h2.1, h2.2.2.2.trans rfl⟩

/-- C4: the mapping step fails exactly when the `days` field is absent, is not
a list, or is the empty list, and its error is then `invalid response structure`;
nothing else in the payload makes it fail. -/
theorem normalize_fails_iff (city : GoString) (apiResponse : JMap) :
    ((∃ err, normalize city apiResponse = .error err) ↔
        (apiResponse.index (lit "days") = none ∨
          (∃ v, apiResponse.index (lit "days") = some v ∧ ∀ xs, v ≠ .array xs) ∨
          apiResponse.index (lit "days") = some (.array []))) ∧
      ∀ err, normalize city apiResponse = .error err → err = .invalidStructure := by
  unfold normalize
  cases hd : apiResponse.index (lit "days") with
  | none => simp [assertSlice]
  | some v =>
    cases v with
    | array xs =>
      cases xs with
      | nil => simp [assertSlice]
      | cons day0 rest =>
        simp only [assertSlice]
        cases assertMap day0 <;> simp
    | null => simp [assertSlice]
    | bool b => simp [assertSlice]
    | number f => simp [assertSlice]
    | string str => simp [assertSlice]
    | object fields => simp [assertSlice]

/-- C5: when `days` is a non-empty list whose first element is a mapping, the
mapping step succeeds with the requested city, and the two fields are taken
independently: the temperature is the first day's `temp` when that is a
number and `0.0` otherwise, the condition is its `conditions` when that is a
string and `Unknown` otherwise. -/
theorem normalize_first_day_fields (city : GoString) (apiResponse dayData : JMap)
    (rest : List JVal)
    (hdays : apiResponse.index (lit "days") = some (.array (.object dayData :: rest))) :
    ∃ weather, normalize city apiResponse = .ok weather ∧ weather.City = city ∧
      (∀ t, dayData.index (lit "temp") = some (.number t) → weather.Temp = t) ∧
      ((∀ t, dayData.index (lit "temp") ≠ some (.number t)) → weather.Temp = Float64.zero) ∧
      (∀ c, dayData.index (lit "conditions") = some (.string c) → weather.Weather = c) ∧
      ((∀ c, dayData.index (lit "conditions") ≠ some (.string c)) →
        weather.Weather = lit "Unknown") := by
  unfold normalize
  simp only [hdays, assertSlice, assertMap]
  refine ⟨_, rfl, ?_, ?_, ?_, ?_, ?_⟩
  · cases assertFloat64 (dayData.index (lit "temp")) <;>
      cases assertString (dayData.index (lit "conditions")) <;> rfl
  · intro t ht
    rw [ht]
    cases assertString (dayData.index (lit "conditions")) <;> rfl
  · intro hno
    have : assertFloat64 (dayData.index (lit "temp")) = none := by
      cases hv : dayData.index (lit "temp") with
      | none => rfl
      | some v =>
        cases v with
        | number f => exact absurd hv (hno f)
        | null => rfl
        | bool b => rfl
        | string str => rfl
        | array xs => rfl
        | object fields => rfl
    rw [this]
    cases assertString (dayData.index (lit "conditions")) <;> rfl
  · intro c hc
    rw [hc]
    cases assertFloat64 (dayData.index (lit "temp")) <;> rfl
  · intro hno
    have : assertString (dayData.index (lit "conditions")) = none := by
      cases hv : dayData.index (lit "conditions") with
      | none => rfl
      | some v =>
        cases v with
        | string str => exact absurd hv (hno str)
        | null => rfl
        | bool b => rfl
        | number f => rfl
        | array xs => rfl
        | object fields => rfl
    rw [this]

/-- C5 at the payload whose only day is the empty object: temperature 0.0 and
condition `Unknown`. -/
theorem normalize_first_day_fields_witness :
    normalize seoul [(lit "days", .array [.object []])]
      = .ok ⟨seoul, Float64.zero, lit "Unknown"⟩ := by
  obtain ⟨weather, hok, hcity, _, htemp, _, hcond⟩ :=
    normalize_first_day_fields seoul [(lit "days", .array [.object []])] [] [] rfl
  have h1 : weather.Temp = Float64.zero := htemp (fun t h => by cases h)
  have h2 : weather.Weather = lit "Unknown" := hcond (fun c h => by cases h)
  rw [hok]
  cases weather
  simp only at hcity h1 h2
  rw [hcity, h1, h2]

/-- C6, the run at the failing input: with `days` the one-element list `[1]`,
whose first element is a number and not a mapping, `getWeather` returns the
record with temperature 0 and the empty condition and no error, and writes it
to the cache for ten minutes. -/
theorem getWeather_accepts_non_mapping_day :
    normalize seoul [(lit "days", .array [.number ⟨4607182418800017408⟩])]
        = .ok ⟨seoul, Float64.zero, []⟩ ∧
      (getWeather (worldWith emptyRedis (lit "numberDay")) seoul).result
        = .ok ⟨seoul, Float64.zero, []⟩ ∧
      (getWeather (worldWith emptyRedis (lit "numberDay")) seoul).store
        = [(seoul, ⟨lit "record", 10 * Minute⟩)] := by
  refine ⟨rfl, rfl, rfl⟩

/-- C7: whenever `getWeather` returns an error, whichever it is, the store is
exactly the one it started from and the run made no cache write. -/
theorem getWeather_error_leaves_cache (w : World) (city : GoString) (err : LookupError)
    (herr : (getWeather w city).result = .error err) :
    (getWeather w city).store = w.redis.store ∧
      (getWeather w city).events.countP Event.isCacheSet = 0 := by
  revert herr
  unfold getWeather
  cases cachedWeather w city with
  | some cached => exact fun _ => ⟨rfl, rfl⟩
  | none =>
    simp only
    cases w.httpGet (requestURL city w.apiKey) with
    | failed e => exact fun _ => ⟨rfl, rfl⟩
    | response statusCode body =>
      simp only
      split
      · exact fun _ => ⟨rfl, rfl⟩
      · cases w.json.Decode body with
        | error e => exact fun _ => ⟨rfl, rfl⟩
        | ok apiResponse =>
          simp only
          cases normalize city apiResponse with
          | error e => exact fun _ => ⟨rfl, rfl⟩
          | ok weather => exact fun herr => by cases herr

/-- C7 at a concrete run: a miss whose upstream payload has an empty `days` list. -/
theorem getWeather_error_leaves_cache_witness :
    (getWeather (worldWith warmRedis (lit "noDays")) (lit "Busan")).result
        = .error .invalidStructure ∧
      (getWeather (worldWith warmRedis (lit "noDays")) (lit "Busan")).store
        = warmRedis.store := by
  have h := getWeather_error_leaves_cache (worldWith warmRedis (lit "noDays")) (lit "Busan")
    .invalidStructure rfl
  exact ⟨rfl, h.1⟩

/-- C9: cache-layer faults do not change what `getWeather` returns.  A failing
cache read, or a stored entry that does not unmarshal, gives the same returned
record or error as any backend in which the key is absent (same upstream, JSON
library and API key); and when the fetch succeeds and the mapping step yields
a record, that record is returned with no error although the cache write
fails. -/
theorem getWeather_result_ignores_cache_faults (w : World) (city : GoString) :
    (∀ r : Redis, w.redis.getFails = true → List.lookup city r.store = none →
        (getWeather w city).result = (getWeather { w with redis := r } city).result) ∧
      (∀ (r : Redis) (e : Entry), List.lookup city w.redis.store = some e →
        w.json.Unmarshal e.value = none → List.lookup city r.store = none →
        (getWeather w city).result = (getWeather { w with redis := r } city).result) ∧
      (∀ (body : GoString) (apiResponse : JMap) (weather : WeatherResponse),
        w.redis.setFails = true → cachedWeather w city = none →
        w.httpGet (requestURL city w.apiKey) = .response StatusOK body →
        w.json.Decode body = .ok apiResponse →
        normalize city apiResponse = .ok weather →
        (getWeather w city).result = .ok weather) := by
  refine ⟨?_, ?_, ?_⟩
  · intro r hf habs
    exact (getWeather_result_of_miss w { w with redis := r } city rfl rfl rfl
      (cachedWeather_of_getFails w city hf)
      (cachedWeather_of_absent { w with redis := r } city habs)).symm
  · intro r e he hu habs
    exact (getWeather_result_of_miss w { w with redis := r } city rfl rfl rfl
      (cachedWeather_of_corrupt w city e he hu)
      (cachedWeather_of_absent { w with redis := r } city habs)).symm
  · intro body apiResponse weather _ hm hresp hdec hnorm
    unfold getWeather
    rw [hm]
    simp only [hresp, hdec, hnorm]
    rfl

/-- C9 at concrete runs: a corrupt entry against an empty cache, and a backend
on which both the read and the write fail. -/
theorem getWeather_result_ignores_cache_faults_witness :
    (getWeather (worldWith corruptRedis (lit "rainDay")) seoul).result
        = (getWeather (worldWith emptyRedis (lit "rainDay")) seoul).result ∧
      (getWeather (worldWith ⟨[], true, true⟩ (lit "rainDay")) seoul).result
        = .ok ⟨seoul, ⟨4626744929681408000⟩, lit "Rain"⟩ := by
  have h := getWeather_result_ignores_cache_faults (worldWith corruptRedis (lit "rainDay")) seoul
  have h' := getWeather_result_ignores_cache_faults (worldWith ⟨[], true, true⟩ (lit "rainDay"))
    seoul
  exact ⟨h.2.1 emptyRedis ⟨lit "garbage", 10 * Minute⟩ rfl rfl rfl,
    h'.2.2 (lit "rainDay") _ ⟨seoul, ⟨4626744929681408000⟩, lit "Rain"⟩ rfl rfl rfl rfl rfl⟩

/-- C8, as stated, fails for a city that is not valid UTF-8.  The one-byte city
`\xff` is marshalled with its byte replaced by the escape for U+FFFD, and
unmarshals to the three-byte city `\xef\xbf\xbd`.  Through `getWeather`: the
first lookup returns the record with city `\xff` and caches it, the second
lookup, served from that cache entry, returns a record whose city differs. -/
theorem Unmarshal_Marshal_invalid_city :
    Unmarshal sampleText
        ((Marshal sampleText ⟨[0xff], Float64.zero, lit "Unknown"⟩).getD [])
        = some ⟨[0xef, 0xbf, 0xbd], Float64.zero, lit "Unknown"⟩ ∧
      (getWeather (modelWorld [] (lit "emptyDay")) [0xff]).result
        = .ok ⟨[0xff], Float64.zero, lit "Unknown"⟩ ∧
      (getWeather (modelWorld (getWeather (modelWorld [] (lit "emptyDay")) [0xff]).store
          (lit "emptyDay")) [0xff]).result
        = .ok ⟨[0xef, 0xbf, 0xbd], Float64.zero, lit "Unknown"⟩ := by
  refine ⟨by decide, rfl, rfl⟩

/-- C8, amended: for every record whose city and condition are valid UTF-8 and
whose temperature has a decimal text that is a JSON number and parses back to
the same `float64` (what `strconv` gives for every finite value),
`json.Marshal` succeeds, and `json.Unmarshal` of its bytes succeeds and yields
a record equal to the original in all three fields. -/
theorem Unmarshal_Marshal_valid (ft : FloatText) (v : WeatherResponse) (text : GoString)
    (hcity : ValidString v.City = true) (hweather : ValidString v.Weather = true)
    (hformat : ft.format v.Temp = some text) (hnum : scanNumber text = some (text, []))
    (hparse : ft.parse text = some v.Temp) :
    ∃ data, Marshal ft v = some data ∧ Unmarshal ft data = some v :=
  Unmarshal_Marshal ft v text hcity hweather hformat hnum hparse

/-- C8, amended, at the record for `seoul` with 21.5 degrees and `Rain`. -/
theorem Unmarshal_Marshal_valid_witness :
    ∃ data, Marshal sampleText ⟨seoul, ⟨4626744929681408000⟩, lit "Rain"⟩ = some data ∧
      Unmarshal sampleText data = some ⟨seoul, ⟨4626744929681408000⟩, lit "Rain"⟩ :=
  Unmarshal_Marshal_valid sampleText ⟨seoul, ⟨4626744929681408000⟩, lit "Rain"⟩ (lit "21.5")
    (by decide) (by decide) (by decide) (by decide) (by decide)

end WeatherApi

namespace TaskTracker

open WeatherApi (lit)

/-- C10, the run at the failing input: from no `tasks.json`, adding two tasks,
deleting task 1 and adding a third task stores two tasks that both have ID 2,
because `addTask` numbers a new task by the length of the list. -/
theorem addTask_reuses_id_after_delete :
    storedIDs (run .missing [.add (lit "a") 1 1, .add (lit "b") 2 2, .delete 1,
        .add (lit "c") 3 3]) = [2, 2] ∧
      ¬ (storedIDs (run .missing [.add (lit "a") 1 1, .add (lit "b") 2 2, .delete 1,
        .add (lit "c") 3 3])).Nodup := by
  constructor <;> decide

end TaskTracker
